import Mathlib

/-! The package `rejectcontries`, a country-based request filter.

A shallow embedding of `reject_countries.go`.  The plugin wraps a downstream
HTTP handler; for every request it extracts a client address, resolves it to a
country through an optional lookup function and either serves a configured
static response or hands the request to the downstream handler.

Conventions of the embedding:

* Go strings are Lean `String`s (sequences of Unicode code points, that is,
  valid UTF-8 byte strings).
* A Go `map[string]V` is the list of its entries.  The order of the list is the
  order in which `range` visits the entries; Go leaves it unspecified, and the
  results below hold for every order.
* The calls that `ServeHTTP` issues on the response writer, the downstream
  handler and the logger are returned as a list of `Effect`s in program order;
  every call names the response writer it is made on or handed.
* `ServeHTTP.exec` and `serveStaticResponse.exec` are the same methods as steps
  on a `World`, the plugin behind the receiver pointer together with the calls
  issued so far; they are proved to issue the calls of `ServeHTTP` and
  `serveStaticResponse`.
* `ResponseRecorder.run` plays calls against `httptest.ResponseRecorder`,
  including the panic of `WriteHeader` on a code outside `[100, 999]`.
* Library functions the package calls (`strings`, `net`, `net/http`) are
  written out from their documented behaviour; `net.ParseIP`, `os.Stat`, the
  GeoIP database reader and the upper-case table of package `unicode` are taken
  as parameters (`Externals`).
-/

namespace Rejectcontries

/-! ## Go maps -/

/-- The map read `m[k]`: the stored value, or the zero value `zero` for a
missing key. -/
def mapGet {ν : Type} (zero : ν) : List (String × ν) → String → ν
  | [], _ => zero
  | (k', v) :: rest, k => if k' = k then v else mapGet zero rest k

/-- The map write `m[k] = v`: replaces the entry of `k` or adds one. -/
def mapSet {ν : Type} : List (String × ν) → String → ν → List (String × ν)
  | [], k, v => [(k, v)]
  | (k', v') :: rest, k, v =>
    if k' = k then (k, v) :: rest else (k', v') :: mapSet rest k v

/-! ## Package `strings` -/

/-- The upper-case form of one rune, for the ASCII letters. -/
def toUpperRune (c : Char) : Char :=
  if 'a' ≤ c ∧ c ≤ 'z' then Char.ofNat (c.toNat - 32) else c

/-- Go `unicode.ToUpper`: an ASCII rune is handled in place, every other rune
goes through the case tables of package `unicode`
(`unicode.To(unicode.UpperCase, r)`).  The tables are data of the Go release and
are taken as the parameter `upperCase`. -/
def unicodeToUpper (upperCase : Char → Char) (r : Char) : Char :=
  if r.toNat ≤ 127 then toUpperRune r else upperCase r

/-- Go `strings.ToUpper`: every rune mapped by `unicode.ToUpper` (the loop over
the bytes of an ASCII string does the same in place). -/
def ToUpper (upperCase : Char → Char) (s : String) : String :=
  ⟨s.data.map (unicodeToUpper upperCase)⟩

/-- The pieces of a rune sequence between occurrences of `sep`. -/
def splitRunes (sep : Char) : List Char → List (List Char)
  | [] => [[]]
  | c :: cs =>
    if c = sep then [] :: splitRunes sep cs
    else
      match splitRunes sep cs with
      | [] => [[c]]
      | piece :: pieces => (c :: piece) :: pieces

/-- Go `strings.Split(s, sep)` for a separator of one character, the only use
in this package (`strings.Split(forwardedFor, ",")`). -/
def Split (s : String) (sep : Char) : List String :=
  (splitRunes sep s.data).map String.mk

/-- Go `unicode.IsSpace`: the code points with the White_Space property. -/
def isSpace (c : Char) : Bool :=
  let n := c.toNat
  (9 ≤ n && n ≤ 13) || n = 32 || n = 0x85 || n = 0xA0 || n = 0x1680 ||
  (0x2000 ≤ n && n ≤ 0x200A) || n = 0x2028 || n = 0x2029 || n = 0x202F ||
  n = 0x205F || n = 0x3000

/-- Go `strings.TrimSpace`: leading and trailing white space removed. -/
def TrimSpace (s : String) : String :=
  ⟨(s.data.dropWhile isSpace).rdropWhile isSpace⟩

/-! ## Package `net` -/

/-- The reasons for which `net.SplitHostPort` fails. -/
inductive AddrError
  | missingPort
  | tooManyColons
  | missingBracket
  | unexpectedOpen
  | unexpectedClose
deriving DecidableEq, Repr

/-- Index of the first `c` in `s` (Go `IndexByteString`; `none` is -1). -/
def indexByte (c : Char) : List Char → Option Nat
  | [] => none
  | d :: ds => if d = c then some 0 else (indexByte c ds).map (· + 1)

/-- Index of the last `c` in `s` (Go `LastIndexByteString`; `none` is -1). -/
def lastIndexByte (c : Char) : List Char → Option Nat
  | [] => none
  | d :: ds =>
    match lastIndexByte c ds with
    | some i => some (i + 1)
    | none => if d = c then some 0 else none

/-- The closing checks of `net.SplitHostPort`: no `[` from position `j` on, no
`]` from position `k` on; the port is what follows the last colon, at `i`. -/
def splitHostPortTail (s host : List Char) (i j k : Nat) :
    Except AddrError (String × String) :=
  if (indexByte '[' (s.drop j)).isSome then .error .unexpectedOpen
  else if (indexByte ']' (s.drop k)).isSome then .error .unexpectedClose
  else .ok (⟨host⟩, ⟨s.drop (i + 1)⟩)

/-- Go `net.SplitHostPort`: splits `host:port`, `[host]:port` into host and
port. -/
def SplitHostPort (hostport : String) : Except AddrError (String × String) :=
  let s := hostport.data
  match lastIndexByte ':' s with
  | none => .error .missingPort
  | some i =>
    if s.head? = some '[' then
      match indexByte ']' s with
      | none => .error .missingBracket
      | some e =>
        if e + 1 = s.length then .error .missingPort
        else if e + 1 = i then
          splitHostPortTail s ((s.take e).drop 1) i 1 (e + 1)
        else if s.get? (e + 1) = some ':' then .error .tooManyColons
        else .error .missingPort
    else
      let host := s.take i
      if (indexByte ':' host).isSome then .error .tooManyColons
      else splitHostPortTail s host i 0 0

/-- Go `net.IP`, a byte slice. -/
abbrev IP := List Nat

/-! ## Package `net/http` -/

/-- Go `http.Header`, a `map[string][]string`. -/
abbrev Header := List (String × List String)

/-- The bytes allowed in a header field name (RFC 7230 token characters). -/
def validHeaderFieldByte (c : Char) : Bool :=
  c.isAlphanum ||
    c.toNat ∈ [33, 35, 36, 37, 38, 39, 42, 43, 45, 46, 94, 95, 96, 124, 126]

/-- The canonical spelling of a valid name: upper case at the start and after
each dash, lower case elsewhere. -/
def canonRunes : Bool → List Char → List Char
  | _, [] => []
  | upper, c :: cs =>
    let d :=
      if upper ∧ 'a' ≤ c ∧ c ≤ 'z' then Char.ofNat (c.toNat - 32)
      else if ¬ upper ∧ 'A' ≤ c ∧ c ≤ 'Z' then Char.ofNat (c.toNat + 32)
      else c
    d :: canonRunes (d = '-') cs

/-- Go `textproto.CanonicalMIMEHeaderKey`: a name holding a byte that is not a
token character is returned unchanged. -/
def CanonicalMIMEHeaderKey (s : String) : String :=
  if s.data.all validHeaderFieldByte then ⟨canonRunes true s.data⟩ else s

/-- Go `Header.Get`: the first value stored under the canonical form of `key`,
or the empty string. -/
def Header.Get (h : Header) (key : String) : String :=
  match mapGet [] h (CanonicalMIMEHeaderKey key) with
  | [] => ""
  | v :: _ => v

/-- Go `Header.Add`: appends `value` to the values stored under the canonical
form of `key`. -/
def Header.Add (h : Header) (key value : String) : Header :=
  let k := CanonicalMIMEHeaderKey key
  mapSet h k (mapGet [] h k ++ [value])

/-- The fields of `http.Request` the package reads. -/
structure Request where
  Header : Header
  RemoteAddr : String
deriving DecidableEq, Repr

/-- A downstream `http.Handler`, known by identity only. -/
structure Handler where
  id : Nat
deriving DecidableEq, Repr

/-- An `http.ResponseWriter` value, known by identity only. -/
structure ResponseWriter where
  id : Nat
deriving DecidableEq, Repr

/-- Go `error` values, by their message. -/
abbrev GoError := String

/-- The response writer of the tests, `httptest.ResponseRecorder`: the state
behind a `ResponseWriter` value, built up by the calls made on it.  `Code` is
`none` until the status line is written. -/
structure ResponseRecorder where
  HeaderMap : Header
  Code : Option Int
  Body : String
deriving DecidableEq, Repr

/-! ## The plugin -/

/-- The Go struct `StaticResponseConfig`; `Headers` is `none` for a nil map. -/
structure StaticResponseConfig where
  StatusCode : Int
  Headers : Option Header
  Body : String
deriving DecidableEq, Repr

/-- The Go struct `RejectCountriesConfig`. -/
structure RejectCountriesConfig where
  DBPath : String
  PreferXForwardedForHeader : Bool
  MatchCountries : List String
  StaticResponse : StaticResponseConfig
deriving DecidableEq, Repr

/-- Go `CreateConfig`: the default plugin configuration. -/
def CreateConfig : RejectCountriesConfig :=
  { DBPath := "/mmdb/GeoLite2-Country.mmdb"
    PreferXForwardedForHeader := true
    MatchCountries := []
    StaticResponse := { StatusCode := 200, Headers := some [], Body := "" } }

/-- The Go type `RejectCountriesLookup`, `func(ip net.IP) (string, error)`. -/
abbrev RejectCountriesLookup := IP → String × Option GoError

/-- The Go struct `RejectCountries`; `lookup` is `none` for a nil function. -/
structure RejectCountries where
  next : Handler
  name : String
  preferXForwardedForHeader : Bool
  matchCountries : List (String × Bool)
  staticResponse : StaticResponseConfig
  lookup : Option RejectCountriesLookup

/-- A country database reader: `Lookup(ip)` gives the ISO code of the
record's country, or an error. -/
abbrev CountryReader := IP → Except GoError String

/-- What the package takes from outside: `net.ParseIP` (`none` is the nil
address), `os.Stat` (`true` when it succeeds),
`geoip2.NewCountryReaderFromFile`, and the upper-case table of package
`unicode` that `strings.ToUpper` consults for runes outside ASCII. -/
structure Externals where
  UpperCase : Char → Char
  ParseIP : String → Option IP
  Stat : String → Bool
  NewCountryReaderFromFile : String → Except GoError CountryReader

/-- The lines the package hands to `log.Printf`, by format string. -/
inductive LogLine
  | initFailed (err : GoError)
  | initialized (dbPath name : String)
  | invalidIP (ipStr : String)
  | lookupFailed (ipStr : String) (err : GoError)
  | rejecting (country ipStr : String)
deriving DecidableEq, Repr

/-- One call issued while a request is served: `rw.Header().Add(key, value)`,
`rw.WriteHeader(code)`, `rw.Write(body)`, `next.ServeHTTP(rw, req)` and
`log.Printf`. -/
inductive Effect
  | headerAdd (rw : ResponseWriter) (key value : String)
  | writeHeader (rw : ResponseWriter) (code : Int)
  | write (rw : ResponseWriter) (body : String)
  | serveNext (next : Handler) (rw : ResponseWriter) (req : Request)
  | logPrintf (line : LogLine)
deriving DecidableEq, Repr

/-- Whether the call is made on a response writer. -/
def Effect.onSink : Effect → Bool
  | .headerAdd _ _ _ => true
  | .writeHeader _ _ => true
  | .write _ _ => true
  | .serveNext _ _ _ => false
  | .logPrintf _ => false

/-- Whether the call adds a header. -/
def Effect.isAdd : Effect → Bool
  | .headerAdd _ _ _ => true
  | _ => false

/-- Whether the call writes the status code. -/
def Effect.isStatus : Effect → Bool
  | .writeHeader _ _ => true
  | _ => false

/-- Whether the call writes body bytes. -/
def Effect.isBody : Effect → Bool
  | .write _ _ => true
  | _ => false

/-- The name and value of a header addition. -/
def Effect.added : Effect → Option (String × String)
  | .headerAdd _ key value => some (key, value)
  | _ => none

/-- Whether the call hands the request to a downstream handler. -/
def Effect.isNext : Effect → Bool
  | .serveNext _ _ _ => true
  | _ => false

/-- The loop of `New` that fills the map:
`matchCountriesMap[strings.ToUpper(country)] = true`. -/
def buildMatchCountries (upperCase : Char → Char) :
    List (String × Bool) → List String → List (String × Bool)
  | m, [] => m
  | m, country :: rest =>
    buildMatchCountries upperCase (mapSet m (ToUpper upperCase country) true) rest

/-- Go `initGeoIPLookup`: the plugin after the call, the error returned and the
lines logged. -/
def initGeoIPLookup (ext : Externals) (rc : RejectCountries) (dbPath : String) :
    RejectCountries × Option GoError × List LogLine :=
  if ext.Stat dbPath then
    match ext.NewCountryReaderFromFile dbPath with
    | .error err => (rc, some ("failed to open GeoIP database: " ++ err), [])
    | .ok rdr =>
      ({ rc with
          lookup := some fun ip =>
            match rdr ip with
            | .error err => ("", some err)
            | .ok iso => (iso, none) },
        none, [.initialized dbPath rc.name])
  else (rc, some ("GeoIP database not found: " ++ dbPath), [])

/-- What a call of `New` leaves behind: the two return values, the
configuration behind the pointer it was given, and the lines logged. -/
structure NewResult where
  handler : Option RejectCountries
  err : Option GoError
  config : RejectCountriesConfig
  logs : List LogLine

/-- Go `New`. -/
def New (ext : Externals) (next : Handler) (config : RejectCountriesConfig)
    (name : String) : NewResult :=
  if config.MatchCountries.length = 0 then
    { handler := none, err := some "matchCountries cannot be empty",
      config := config, logs := [] }
  else
    let matchCountriesMap := buildMatchCountries ext.UpperCase [] config.MatchCountries
    let headers : Header :=
      match config.StaticResponse.Headers with
      | none => []
      | some h => h
    let statusCode :=
      if config.StaticResponse.StatusCode < 100 ∨ config.StaticResponse.StatusCode > 999
      then 200 else config.StaticResponse.StatusCode
    let staticResponse : StaticResponseConfig :=
      { config.StaticResponse with Headers := some headers, StatusCode := statusCode }
    let config := { config with StaticResponse := staticResponse }
    let plugin : RejectCountries :=
      { next := next
        name := name
        preferXForwardedForHeader := config.PreferXForwardedForHeader
        matchCountries := matchCountriesMap
        staticResponse := config.StaticResponse
        lookup := none }
    match initGeoIPLookup ext plugin config.DBPath with
    | (plugin, some err, logs) =>
      { handler := some plugin, err := none, config := config,
        logs := logs ++ [.initFailed err] }
    | (plugin, none, logs) =>
      { handler := some plugin, err := none, config := config, logs := logs }

/-- Go `getClientIP`.  The first branch of the inner match stands for `ips[0]`;
`strings.Split` never returns an empty slice (`Split_ne_nil`), so the second
is never taken. -/
def getClientIP (rc : RejectCountries) (req : Request) : String :=
  let fallback :=
    match SplitHostPort req.RemoteAddr with
    | .ok (host, _) => host
    | .error _ => req.RemoteAddr
  if rc.preferXForwardedForHeader then
    let forwardedFor := req.Header.Get "X-Forwarded-For"
    if forwardedFor ≠ "" then
      match Split forwardedFor ',' with
      | ip0 :: _ => TrimSpace ip0
      | [] => ""
    else fallback
  else fallback

/-- The entries a `range` over the configured headers visits; a nil map has
none. -/
def rangeHeaders (sr : StaticResponseConfig) : Header :=
  match sr.Headers with
  | none => []
  | some h => h

/-- Go `serveStaticResponse`: every configured header is added, the status code
is written, then the body if it is not empty; all on the writer `rw`. -/
def serveStaticResponse (rc : RejectCountries) (rw : ResponseWriter) (_req : Request) :
    List Effect :=
  ((rangeHeaders rc.staticResponse).map fun (key, values) =>
      values.map (Effect.headerAdd rw key)).flatten
    ++ [Effect.writeHeader rw rc.staticResponse.StatusCode]
    ++ (if rc.staticResponse.Body ≠ "" then [Effect.write rw rc.staticResponse.Body] else [])

/-- Go `ServeHTTP`: the calls issued for one request, in order. -/
def ServeHTTP (ext : Externals) (rc : RejectCountries) (rw : ResponseWriter)
    (req : Request) : List Effect :=
  match rc.lookup with
  | none => [.serveNext rc.next rw req]
  | some lookup =>
    let ipStr := getClientIP rc req
    if ipStr = "" then [.serveNext rc.next rw req]
    else
      match ext.ParseIP ipStr with
      | none => [.logPrintf (.invalidIP ipStr), .serveNext rc.next rw req]
      | some ip =>
        match lookup ip with
        | (_, some err) =>
          [.logPrintf (.lookupFailed ipStr err), .serveNext rc.next rw req]
        | (country, none) =>
          if mapGet false rc.matchCountries (ToUpper ext.UpperCase country) then
            .logPrintf (.rejecting country ipStr) :: serveStaticResponse rc rw req
          else [.serveNext rc.next rw req]

/-- One call applied to the recorder behind the writer `self`; `none` when the
call panics.  `Header().Add` appends, `WriteHeader` sets the code unless one is
set already and panics on a code outside `[100, 999]` (`checkWriteHeaderCode`),
`Write` writes status 200 first when none was written.  A call on another
writer, on the downstream handler or on the logger leaves the recorder as it
is. -/
def ResponseRecorder.apply (self : ResponseWriter) (rec : ResponseRecorder) :
    Effect → Option ResponseRecorder
  | .headerAdd rw key value =>
    if rw = self then some { rec with HeaderMap := rec.HeaderMap.Add key value }
    else some rec
  | .writeHeader rw code =>
    if rw = self then
      match rec.Code with
      | some _ => some rec
      | none =>
        if code < 100 ∨ code > 999 then none
        else some { rec with Code := some code }
    else some rec
  | .write rw body =>
    if rw = self then
      some { rec with
        Code := some (rec.Code.getD 200)
        Body := rec.Body ++ body }
    else some rec
  | .serveNext _ _ _ => some rec
  | .logPrintf _ => some rec

/-- A sequence of calls applied in order to the recorder behind `self`: the
recorder when the calls are over, or when one of them panics, and whether one
did. -/
def ResponseRecorder.run (self : ResponseWriter) :
    ResponseRecorder → List Effect → ResponseRecorder × Bool
  | rec, [] => (rec, false)
  | rec, e :: es =>
    match rec.apply self e with
    | none => (rec, true)
    | some rec' => ResponseRecorder.run self rec' es

/-- Go `httptest.NewRecorder`: no headers, nothing written. -/
def NewRecorder : ResponseRecorder :=
  { HeaderMap := [], Code := none, Body := "" }

/-- A request is passed through: the downstream handler of the filter is
called exactly once, with the writer and the request `ServeHTTP` was given, and
nothing is written on a response writer. -/
def PassesThrough (rc : RejectCountries) (rw : ResponseWriter) (req : Request)
    (t : List Effect) : Prop :=
  t.filter Effect.isNext = [Effect.serveNext rc.next rw req] ∧ ∀ e ∈ t, e.onSink = false

/-- A request is blocked: the static response is served and no downstream
handler is called. -/
def Blocks (rc : RejectCountries) (rw : ResponseWriter) (req : Request)
    (t : List Effect) : Prop :=
  (∃ pre, t = pre ++ serveStaticResponse rc rw req ∧ ∀ e ∈ pre, e.onSink = false) ∧
    ∀ e ∈ t, e.isNext = false

/-- The spec's "first comma-separated entry" of a header value: `entry` holds
no comma, and the value is `entry` alone or `entry` followed by a comma and
more. -/
def IsFirstEntry (entry hdr : List Char) : Prop :=
  ',' ∉ entry ∧ (hdr = entry ∨ ∃ rest, hdr = entry ++ ',' :: rest)

/-- The spec's "surrounding whitespace trimmed": `entry` is `r` between two
runs of white space, and `r` neither starts nor ends with white space. -/
def IsTrimOf (r entry : List Char) : Prop :=
  ∃ pre post, entry = pre ++ r ++ post ∧
    (∀ c ∈ pre, isSpace c = true) ∧ (∀ c ∈ post, isSpace c = true) ∧
    (∀ c, r.head? = some c → isSpace c = false) ∧
    (∀ c, r.getLast? = some c → isSpace c = false)

/-- The values the additions made on `self` in `es` put under the canonical
name `k`, in order. -/
def valuesAdded (self : ResponseWriter) (k : String) (es : List Effect) : List String :=
  es.filterMap fun e =>
    match e with
    | .headerAdd rw key value =>
      if rw = self ∧ CanonicalMIMEHeaderKey key = k then some value else none
    | _ => none

/-- The values configured under names whose canonical form is `k`, in the
order of the entries. -/
def valuesConfigured (k : String) (headers : Header) : List String :=
  ((headers.filter fun p => CanonicalMIMEHeaderKey p.1 = k).map Prod.snd).flatten

/-- The state a request is served in: the plugin behind the receiver pointer
`rc` and the calls issued so far. -/
structure World where
  plugin : RejectCountries
  calls : List Effect

/-- A call is issued.  The response writer, the downstream handler and the
logger hold no reference to the plugin. -/
def World.call (w : World) (e : Effect) : World :=
  { w with calls := w.calls ++ [e] }

/-- Go `serveStaticResponse` as a step on the state: the two loops over the
configured headers, the status write, the body write.  Every field of `rc` is
read from the state at the point of the read. -/
def serveStaticResponse.exec (rw : ResponseWriter) (_req : Request) (w : World) : World :=
  let w1 := (rangeHeaders w.plugin.staticResponse).foldl
    (fun w0 (entry : String × List String) =>
      entry.2.foldl (fun w0 value => w0.call (.headerAdd rw entry.1 value)) w0) w
  let w2 := w1.call (.writeHeader rw w1.plugin.staticResponse.StatusCode)
  if w2.plugin.staticResponse.Body ≠ "" then w2.call (.write rw w2.plugin.staticResponse.Body)
  else w2

/-- Go `ServeHTTP` as a step on the state, statement by statement. -/
def ServeHTTP.exec (ext : Externals) (rw : ResponseWriter) (req : Request) (w : World) :
    World :=
  match w.plugin.lookup with
  | none => w.call (.serveNext w.plugin.next rw req)
  | some lookup =>
    let ipStr := getClientIP w.plugin req
    if ipStr = "" then w.call (.serveNext w.plugin.next rw req)
    else
      match ext.ParseIP ipStr with
      | none =>
        let w1 := w.call (.logPrintf (.invalidIP ipStr))
        w1.call (.serveNext w1.plugin.next rw req)
      | some ip =>
        match lookup ip with
        | (_, some err) =>
          let w1 := w.call (.logPrintf (.lookupFailed ipStr err))
          w1.call (.serveNext w1.plugin.next rw req)
        | (country, none) =>
          if mapGet false w.plugin.matchCountries (ToUpper ext.UpperCase country) then
            let w1 := w.call (.logPrintf (.rejecting country ipStr))
            serveStaticResponse.exec rw req w1
          else w.call (.serveNext w.plugin.next rw req)

/-- Requests served one after another through the same receiver. -/
def serveAll (ext : Externals) (rw : ResponseWriter) : World → List Request → World
  | w, [] => w
  | w, req :: rest => serveAll ext rw (ServeHTTP.exec ext rw req w) rest

/-- The address `ipStr` is a positive, successful match for the filter: the
lookup function is present, the address is non-empty and parses, and the
lookup returns without error a country whose upper-case form is blocked. -/
def Matches (ext : Externals) (rc : RejectCountries) (ipStr : String) : Prop :=
  ∃ lookup ip country, rc.lookup = some lookup ∧ ipStr ≠ "" ∧
    ext.ParseIP ipStr = some ip ∧ lookup ip = (country, none) ∧
    mapGet false rc.matchCountries (ToUpper ext.UpperCase country) = true

/-! ## Fixtures -/

/-- A resolver double: a few known addresses, a miss for every other one. -/
def testReader : CountryReader := fun ip =>
  if ip = [203, 0, 113, 7] then .ok "GB"
  else if ip = [198, 51, 100, 9] then .ok "US"
  else if ip = [192, 0, 2, 1] then .ok "gb"
  else if ip = [192, 0, 2, 2] then .ok "uſ"
  else .error "not found"

/-- An environment double: one database file, a parser of a few dotted
addresses, and a case table knowing the long s and the e with acute accent. -/
def testExternals : Externals where
  UpperCase r := if r = 'ſ' then 'S' else if r = 'é' then 'É' else r
  ParseIP s :=
    if s = "203.0.113.7" then some [203, 0, 113, 7]
    else if s = "198.51.100.9" then some [198, 51, 100, 9]
    else if s = "192.0.2.1" then some [192, 0, 2, 1]
    else if s = "192.0.2.2" then some [192, 0, 2, 2]
    else if s = "10.9.8.7" then some [10, 9, 8, 7]
    else none
  Stat path := path = "/mmdb/GeoLite2-Country.mmdb"
  NewCountryReaderFromFile path :=
    if path = "/mmdb/GeoLite2-Country.mmdb" then .ok testReader
    else .error "invalid database"

/-- The lookup function `initGeoIPLookup` builds over `testReader`. -/
def testLookup : RejectCountriesLookup := fun ip =>
  match testReader ip with
  | .error err => ("", some err)
  | .ok iso => (iso, none)

/-- A configuration blocking `codes`, with a 403 response. -/
def testConfig (codes : List String) (prefer : Bool) : RejectCountriesConfig :=
  { DBPath := "/mmdb/GeoLite2-Country.mmdb"
    PreferXForwardedForHeader := prefer
    MatchCountries := codes
    StaticResponse :=
      { StatusCode := 403
        Headers := some [("Content-Type", ["text/plain"])]
        Body := "Access denied" } }

/-- The filter `New` builds from `testConfig` when the database loads. -/
def testFilter (codes : List String) (prefer : Bool) : RejectCountries :=
  { next := ⟨1⟩
    name := "test"
    preferXForwardedForHeader := prefer
    matchCountries := buildMatchCountries testExternals.UpperCase [] codes
    staticResponse := (testConfig codes prefer).StaticResponse
    lookup := some testLookup }

/-- The filter of `testFilter` with a static response whose one header name is
written in lower case. -/
def lowerNameFilter : RejectCountries :=
  { testFilter ["GB"] true with
    staticResponse :=
      { StatusCode := 403, Headers := some [("x-custom", ["test"])], Body := "" } }

/-- The filter of the test `TestRejectCountries_ServeStaticResponse`. -/
def staticTestFilter : RejectCountries :=
  { testFilter ["GB"] true with
    staticResponse :=
      { StatusCode := 403
        Headers := some [("Content-Type", ["text/plain"]), ("X-Custom", ["test"])]
        Body := "Access denied from your country" } }

/-- The filter of `testFilter` with a header of two values and an empty body. -/
def multiValueFilter : RejectCountries :=
  { testFilter ["GB"] true with
    staticResponse :=
      { StatusCode := 451
        Headers := some [("Set-Cookie", ["a=1", "b=2"]), ("X-Custom", ["test"])]
        Body := "" } }

/-- The response writer of the fixtures. -/
def testWriter : ResponseWriter := ⟨7⟩

/-- A request from `remoteAddr` with the given `X-Forwarded-For` lines. -/
def testRequest (forwardedFor : List String) (remoteAddr : String) : Request :=
  { Header := if forwardedFor = [] then [] else [("X-Forwarded-For", forwardedFor)]
    RemoteAddr := remoteAddr }

/-- The configuration `testConfig ["GB"] true` with another status code. -/
def statusConfig (code : Int) : RejectCountriesConfig :=
  { testConfig ["GB"] true with
    StaticResponse := { StatusCode := code, Headers := none, Body := "Access denied" } }

/-- A recorder that already holds two headers. -/
def usedRecorder : ResponseRecorder :=
  { HeaderMap := [("X-Custom", ["old"]), ("Server", ["edge"])], Code := none, Body := "" }

/-! ## Maps -/

theorem mapGet_mapSet {ν : Type} (zero : ν) (m : List (String × ν)) (k k' : String) (v : ν) :
    mapGet zero (mapSet m k v) k' = if k = k' then v else mapGet zero m k' := by
  induction m with
  | nil => simp [mapSet, mapGet]
  | cons p rest ih =>
    obtain ⟨a, b⟩ := p
    simp only [mapSet]
    split_ifs with h1 h2 h2 <;> simp only [mapGet, ih] <;> split_ifs <;> simp_all

theorem mapGet_buildMatchCountries (U : Char → Char) (l : List String)
    (m : List (String × Bool)) (k : String) :
    mapGet false (buildMatchCountries U m l) k = true ↔
      mapGet false m k = true ∨ ∃ c ∈ l, ToUpper U c = k := by
  induction l generalizing m with
  | nil => simp [buildMatchCountries]
  | cons c rest ih =>
    rw [buildMatchCountries, ih, mapGet_mapSet]
    by_cases h : ToUpper U c = k
    · simp [h]
    · simp [h]

/-! ## Splitting and trimming -/

theorem splitRunes_head (sep : Char) (l : List Char) :
    ∃ rest, splitRunes sep l = l.takeWhile (fun c => c != sep) :: rest := by
  induction l with
  | nil => exact ⟨[], rfl⟩
  | cons c cs ih =>
    obtain ⟨rest, hrest⟩ := ih
    by_cases hc : c = sep
    · exact ⟨splitRunes sep cs, by simp [splitRunes, hc]⟩
    · exact ⟨rest, by simp [splitRunes, hc, hrest]⟩

theorem Split_ne_nil (s : String) (sep : Char) : Split s sep ≠ [] := by
  obtain ⟨rest, h⟩ := splitRunes_head sep s.data
  simp [Split, h]

theorem Split_head (s : String) (sep : Char) :
    ∃ rest, Split s sep = String.mk (s.data.takeWhile (fun c => c != sep)) :: rest := by
  obtain ⟨rest, h⟩ := splitRunes_head sep s.data
  exact ⟨rest.map String.mk, by simp [Split, h]⟩

theorem takeWhile_ne_of_not_mem (sep : Char) (e rest : List Char) (h : sep ∉ e) :
    (e ++ sep :: rest).takeWhile (fun c => c != sep) = e ∧
      e.takeWhile (fun c => c != sep) = e := by
  induction e with
  | nil => simp
  | cons c cs ih =>
    have hc : c ≠ sep := fun hh => h (hh ▸ List.mem_cons_self _ _)
    have hcs : sep ∉ cs := fun hh => h (List.mem_cons_of_mem _ hh)
    simp [List.takeWhile_cons, hc, ih hcs]

theorem isFirstEntry_iff (entry hdr : List Char) :
    IsFirstEntry entry hdr ↔ entry = hdr.takeWhile (fun c => c != ',') := by
  constructor
  · rintro ⟨hno, rfl | ⟨rest, rfl⟩⟩
    · exact ((takeWhile_ne_of_not_mem ',' hdr [] hno).2).symm
    · exact ((takeWhile_ne_of_not_mem ',' entry rest hno).1).symm
  · rintro rfl
    refine ⟨fun hmem => ?_, ?_⟩
    · have := List.mem_takeWhile_imp hmem
      simp at this
    · have hsplit := List.takeWhile_append_dropWhile (fun c => c != ',') hdr
      rcases hd : hdr.dropWhile (fun c => c != ',') with _ | ⟨c, rest⟩
      · left
        rw [hd, List.append_nil] at hsplit
        exact hsplit.symm
      · right
        have hnot := List.head?_dropWhile_not (fun c => c != ',') hdr
        rw [hd] at hnot hsplit
        simp only [List.head?_cons, bne_eq_false_iff_eq] at hnot
        subst hnot
        exact ⟨rest, hsplit.symm⟩

theorem rdropWhile_append_rtakeWhile (p : Char → Bool) (l : List Char) :
    l.rdropWhile p ++ l.rtakeWhile p = l := by
  rw [List.rdropWhile, List.rtakeWhile, ← List.reverse_append,
    List.takeWhile_append_dropWhile, List.reverse_reverse]

theorem dropWhile_append_of_all (p : Char → Bool) (pre l : List Char)
    (h : ∀ c ∈ pre, p c = true) : (pre ++ l).dropWhile p = l.dropWhile p := by
  induction pre with
  | nil => rfl
  | cons c cs ih =>
    have hc : p c = true := h c (List.mem_cons_self _ _)
    simp only [List.cons_append, List.dropWhile_cons, hc, if_true]
    exact ih fun d hd => h d (List.mem_cons_of_mem _ hd)

theorem rdropWhile_append_of_all (p : Char → Bool) (l post : List Char)
    (h : ∀ c ∈ post, p c = true) : (l ++ post).rdropWhile p = l.rdropWhile p := by
  rw [List.rdropWhile, List.reverse_append, dropWhile_append_of_all p post.reverse l.reverse
    (fun c hc => h c (List.mem_reverse.1 hc))]
  rfl

theorem isTrimOf_iff (r entry : List Char) :
    IsTrimOf r entry ↔ r = (entry.dropWhile isSpace).rdropWhile isSpace := by
  constructor
  · rintro ⟨pre, post, rfl, hpre, hpost, hhead, hlast⟩
    rw [List.append_assoc, dropWhile_append_of_all isSpace pre _ hpre]
    rcases r with _ | ⟨c, cs⟩
    · have h1 : ([] ++ post).dropWhile isSpace = [] := by
        simpa [List.dropWhile_eq_nil_iff] using hpost
      rw [h1]
      rfl
    · have hc : isSpace c = false := hhead c rfl
      have h1 : (c :: cs ++ post).dropWhile isSpace = c :: cs ++ post := by
        simp [List.dropWhile_cons, hc]
      rw [h1, rdropWhile_append_of_all isSpace _ post hpost]
      symm
      rw [List.rdropWhile_eq_self_iff]
      intro hl
      have := hlast ((c :: cs).getLast hl) (List.getLast?_eq_getLast _ hl)
      simp [this]
  · rintro rfl
    refine ⟨entry.takeWhile isSpace, (entry.dropWhile isSpace).rtakeWhile isSpace, ?_,
      fun c hc => List.mem_takeWhile_imp hc, fun c hc => List.mem_rtakeWhile_imp hc, ?_, ?_⟩
    · rw [List.append_assoc, rdropWhile_append_rtakeWhile, List.takeWhile_append_dropWhile]
    · intro c hc
      obtain ⟨t, ht⟩ := List.rdropWhile_prefix isSpace (l := entry.dropWhile isSpace)
      have hnot := List.head?_dropWhile_not isSpace entry
      rw [← ht] at hnot
      rcases hr : (entry.dropWhile isSpace).rdropWhile isSpace with _ | ⟨d, ds⟩
      · rw [hr] at hc
        cases hc
      · rw [hr] at hc hnot
        simp only [List.head?_cons, Option.some.injEq] at hc
        subst hc
        simpa using hnot
    · intro c hc
      have hne : (entry.dropWhile isSpace).rdropWhile isSpace ≠ [] := by
        intro h0
        rw [h0] at hc
        cases hc
      have hnot := List.rdropWhile_last_not isSpace (entry.dropWhile isSpace) hne
      rw [List.getLast?_eq_getLast _ hne, Option.some.injEq] at hc
      subst hc
      simpa using hnot

/-! ## Host and port -/

theorem indexByte_take (c : Char) (l : List Char) (i : Nat) (h : indexByte c l = some i) :
    l.take (i + 1) = l.take i ++ [c] := by
  induction l generalizing i with
  | nil => simp [indexByte] at h
  | cons d ds ih =>
    by_cases hd : d = c
    · simp only [indexByte, hd, if_true, Option.some.injEq] at h
      subst h
      simp [hd]
    · simp only [indexByte, hd, if_false, Option.map_eq_some'] at h
      obtain ⟨j, hj, rfl⟩ := h
      simp [ih j hj]

theorem lastIndexByte_take (c : Char) (l : List Char) (i : Nat)
    (h : lastIndexByte c l = some i) : l.take (i + 1) = l.take i ++ [c] := by
  induction l generalizing i with
  | nil => simp [lastIndexByte] at h
  | cons d ds ih =>
    rcases hl : lastIndexByte c ds with _ | j
    · simp only [lastIndexByte, hl] at h
      by_cases hd : d = c
      · simp only [hd, if_true, Option.some.injEq] at h
        subst h
        simp [hd]
      · simp [hd] at h
    · simp only [lastIndexByte, hl, Option.some.injEq] at h
      subst h
      simp [ih j hl]

theorem split_at_take (c : Char) (l : List Char) (i : Nat)
    (h : l.take (i + 1) = l.take i ++ [c]) : l = l.take i ++ c :: l.drop (i + 1) := by
  conv_lhs => rw [← List.take_append_drop (i + 1) l, h]
  simp

theorem splitHostPortTail_ok (s host : List Char) (i j k : Nat) (h p : String)
    (hok : splitHostPortTail s host i j k = .ok (h, p)) :
    h = ⟨host⟩ ∧ p = ⟨s.drop (i + 1)⟩ := by
  unfold splitHostPortTail at hok
  split_ifs at hok
  cases hok
  exact ⟨rfl, rfl⟩

theorem SplitHostPort_ok (hostport host port : String)
    (h : SplitHostPort hostport = .ok (host, port)) :
    hostport.data = host.data ++ ':' :: port.data ∨
      hostport.data = '[' :: host.data ++ ']' :: ':' :: port.data := by
  unfold SplitHostPort at h
  simp only at h
  rcases hi : lastIndexByte ':' hostport.data with _ | i
  · rw [hi] at h
    cases h
  rw [hi] at h
  simp only at h
  have hcolon := split_at_take ':' _ i (lastIndexByte_take ':' _ i hi)
  split_ifs at h with hb hc
  · rcases he : indexByte ']' hostport.data with _ | e
    · rw [he] at h
      cases h
    rw [he] at h
    simp only at h
    split_ifs at h with h1 h2
    obtain ⟨rfl, rfl⟩ := splitHostPortTail_ok _ _ _ _ _ _ _ h
    right
    have hclose := indexByte_take ']' _ e he
    rcases hs : hostport.data with _ | ⟨d, tl⟩
    · rw [hs] at hb
      cases hb
    rw [hs] at hb hcolon hclose
    simp only [List.head?_cons, Option.some.injEq] at hb
    subst hb
    rcases e with _ | e'
    · simp at hclose
    subst h2
    rw [hclose] at hcolon
    simp only [List.take_succ_cons, List.drop_succ_cons, List.drop_zero, List.cons_append,
      List.append_assoc, List.singleton_append] at hcolon ⊢
    exact hcolon
  · obtain ⟨rfl, rfl⟩ := splitHostPortTail_ok _ _ _ _ _ _ _ h
    left
    exact hcolon

/-! ## The static response -/

theorem rangeHeaders_eq (sr : StaticResponseConfig) :
    rangeHeaders sr = sr.Headers.getD [] := by
  unfold rangeHeaders
  cases sr.Headers <;> rfl

theorem serveStaticResponse_onSink (rc : RejectCountries) (rw : ResponseWriter)
    (req : Request) : ∀ e ∈ serveStaticResponse rc rw req, e.onSink = true := by
  intro e he
  simp only [serveStaticResponse, List.mem_append, List.mem_flatten, List.mem_map,
    List.mem_singleton] at he
  rcases he with (⟨l, ⟨p, -, rfl⟩, he⟩ | rfl) | he
  · simp only [List.mem_map] at he
    obtain ⟨v, -, rfl⟩ := he
    rfl
  · rfl
  · split at he
    · simp only [List.mem_singleton] at he
      subst he
      rfl
    · simp at he

theorem serveStaticResponse_not_next (rc : RejectCountries) (rw : ResponseWriter)
    (req : Request) : ∀ e ∈ serveStaticResponse rc rw req, e.isNext = false := by
  intro e he
  have h := serveStaticResponse_onSink rc rw req e he
  cases e <;> simp_all [Effect.onSink, Effect.isNext]

theorem writeHeader_mem_serveStaticResponse (rc : RejectCountries) (rw : ResponseWriter)
    (req : Request) :
    Effect.writeHeader rw rc.staticResponse.StatusCode ∈ serveStaticResponse rc rw req := by
  simp [serveStaticResponse]

theorem mapGet_Header_Add (h : Header) (key value k : String) :
    mapGet [] (h.Add key value) k =
      if CanonicalMIMEHeaderKey key = k then mapGet [] h k ++ [value] else mapGet [] h k := by
  simp only [Header.Add, mapGet_mapSet]
  split_ifs with hk
  · rw [hk]
  · rfl

theorem run_append (self : ResponseWriter) (es fs : List Effect) (rec : ResponseRecorder) :
    rec.run self (es ++ fs) =
      if (rec.run self es).2 = true then rec.run self es
      else (rec.run self es).1.run self fs := by
  induction es generalizing rec with
  | nil => simp [ResponseRecorder.run]
  | cons e rest ih =>
    simp only [List.cons_append, ResponseRecorder.run]
    cases rec.apply self e with
    | none => simp
    | some rec' => exact ih rec'

theorem run_adds (self : ResponseWriter) (es : List Effect) (rec : ResponseRecorder)
    (hes : ∀ e ∈ es, e.isAdd = true) :
    (rec.run self es).2 = false ∧ (rec.run self es).1.Code = rec.Code ∧
      (rec.run self es).1.Body = rec.Body ∧
      ∀ k, mapGet [] (rec.run self es).1.HeaderMap k =
        mapGet [] rec.HeaderMap k ++ valuesAdded self k es := by
  induction es generalizing rec with
  | nil => simp [ResponseRecorder.run, valuesAdded]
  | cons e rest ih =>
    have hrest : ∀ x ∈ rest, x.isAdd = true := fun x hx => hes x (List.mem_cons_of_mem _ hx)
    have he := hes e (List.mem_cons_self _ _)
    cases e with
    | headerAdd w key value =>
      by_cases hw : w = self
      · obtain ⟨h0, h1, h2, h3⟩ :=
          ih { rec with HeaderMap := rec.HeaderMap.Add key value } hrest
        have hrun : rec.run self (.headerAdd w key value :: rest) =
            ResponseRecorder.run self { rec with HeaderMap := rec.HeaderMap.Add key value }
              rest := by
          simp [ResponseRecorder.run, ResponseRecorder.apply, hw]
        rw [hrun]
        refine ⟨h0, h1, h2, fun k => ?_⟩
        rw [h3 k]
        simp only [mapGet_Header_Add, valuesAdded, List.filterMap_cons, hw, true_and]
        split_ifs <;> simp
      · obtain ⟨h0, h1, h2, h3⟩ := ih rec hrest
        have hrun : rec.run self (.headerAdd w key value :: rest) = rec.run self rest := by
          simp [ResponseRecorder.run, ResponseRecorder.apply, hw]
        rw [hrun]
        refine ⟨h0, h1, h2, fun k => ?_⟩
        rw [h3 k]
        simp [valuesAdded, hw]
    | writeHeader w code => simp [Effect.isAdd] at he
    | write w body => simp [Effect.isAdd] at he
    | serveNext n w r => simp [Effect.isAdd] at he
    | logPrintf line => simp [Effect.isAdd] at he

theorem run_status_body (self : ResponseWriter) (rec : ResponseRecorder) (code : Int)
    (body : String) (h : rec.Code = none) (hlo : 100 ≤ code) (hhi : code ≤ 999) :
    rec.run self (Effect.writeHeader self code ::
        (if body ≠ "" then [Effect.write self body] else [])) =
      ({ rec with Code := some code, Body := rec.Body ++ body }, false) := by
  have hin : ¬ (code < 100 ∨ code > 999) := by omega
  by_cases hb : body = ""
  · subst hb
    simp [ResponseRecorder.run, ResponseRecorder.apply, h, hin]
  · simp [ResponseRecorder.run, ResponseRecorder.apply, h, hin, hb]

theorem run_status_panics (self : ResponseWriter) (rec : ResponseRecorder) (code : Int)
    (tail : List Effect) (h : rec.Code = none) (hbad : code < 100 ∨ code > 999) :
    rec.run self (Effect.writeHeader self code :: tail) = (rec, true) := by
  simp [ResponseRecorder.run, ResponseRecorder.apply, h, hbad]

theorem run_of_not_onSink (self : ResponseWriter) (es : List Effect) (rec : ResponseRecorder)
    (h : ∀ e ∈ es, e.onSink = false) : rec.run self es = (rec, false) := by
  induction es generalizing rec with
  | nil => rfl
  | cons e rest ih =>
    have he := h e (List.mem_cons_self _ _)
    have hrest : ∀ x ∈ rest, x.onSink = false := fun x hx => h x (List.mem_cons_of_mem _ hx)
    have hstep : rec.apply self e = some rec := by
      cases e <;> simp_all [Effect.onSink, ResponseRecorder.apply]
    simp only [ResponseRecorder.run, hstep]
    exact ih rec hrest

theorem apply_headerMap_of_not_isAdd (self : ResponseWriter) (rec rec' : ResponseRecorder)
    (e : Effect) (he : e.isAdd = false) (h : rec.apply self e = some rec') :
    rec'.HeaderMap = rec.HeaderMap := by
  cases e with
  | headerAdd w key value => simp [Effect.isAdd] at he
  | writeHeader w code =>
    by_cases hw : w = self
    · cases hc : rec.Code with
      | some c =>
        simp [ResponseRecorder.apply, hw, hc] at h
        rw [← h]
      | none =>
        by_cases hbad : code < 100 ∨ code > 999
        · simp [ResponseRecorder.apply, hw, hc, hbad] at h
        · simp [ResponseRecorder.apply, hw, hc, hbad] at h
          rw [← h]
    · simp [ResponseRecorder.apply, hw] at h
      rw [← h]
  | write w body =>
    by_cases hw : w = self
    · simp [ResponseRecorder.apply, hw] at h
      rw [← h]
    · simp [ResponseRecorder.apply, hw] at h
      rw [← h]
  | serveNext n w r => cases h; rfl
  | logPrintf line => cases h; rfl

theorem run_headerMap_of_not_isAdd (self : ResponseWriter) (es : List Effect)
    (rec : ResponseRecorder) (h : ∀ e ∈ es, e.isAdd = false) :
    (rec.run self es).1.HeaderMap = rec.HeaderMap := by
  induction es generalizing rec with
  | nil => rfl
  | cons e rest ih =>
    have he := h e (List.mem_cons_self _ _)
    have hrest : ∀ x ∈ rest, x.isAdd = false := fun x hx => h x (List.mem_cons_of_mem _ hx)
    simp only [ResponseRecorder.run]
    cases hstep : rec.apply self e with
    | none => rfl
    | some rec' =>
      simp only
      rw [ih rec' hrest, apply_headerMap_of_not_isAdd self rec rec' e he hstep]

theorem valuesAdded_append (self : ResponseWriter) (k : String) (es fs : List Effect) :
    valuesAdded self k (es ++ fs) = valuesAdded self k es ++ valuesAdded self k fs := by
  simp [valuesAdded, List.filterMap_append]

theorem valuesAdded_values (rw : ResponseWriter) (k key : String) (values : List String) :
    valuesAdded rw k (values.map (Effect.headerAdd rw key)) =
      if CanonicalMIMEHeaderKey key = k then values else [] := by
  induction values with
  | nil => simp [valuesAdded]
  | cons v vs ih =>
    simp only [valuesAdded, List.map_cons, List.filterMap_cons, true_and] at ih ⊢
    split_ifs with hk
    · simp only [hk, if_true] at ih ⊢
      rw [ih]
    · simp only [hk, if_false] at ih ⊢
      exact ih

theorem valuesAdded_headers (rw : ResponseWriter) (k : String) (headers : Header) :
    valuesAdded rw k
        (headers.map fun (key, values) => values.map (Effect.headerAdd rw key)).flatten =
      valuesConfigured k headers := by
  induction headers with
  | nil => rfl
  | cons p rest ih =>
    obtain ⟨key, values⟩ := p
    simp only [List.map_cons, List.flatten_cons, valuesAdded_append, ih, valuesAdded_values,
      valuesConfigured, List.filter_cons]
    by_cases hk : CanonicalMIMEHeaderKey key = k <;> simp [hk]

theorem valuesConfigured_of_canonical (k : String) (headers : Header)
    (hnodup : (headers.map Prod.fst).Nodup)
    (hcanon : ∀ p ∈ headers, CanonicalMIMEHeaderKey p.1 = p.1) :
    valuesConfigured k headers = mapGet [] headers k := by
  induction headers with
  | nil => rfl
  | cons p rest ih =>
    obtain ⟨key, values⟩ := p
    have hkey : CanonicalMIMEHeaderKey key = key := hcanon (key, values) (List.mem_cons_self _ _)
    have hrest : ∀ q ∈ rest, CanonicalMIMEHeaderKey q.1 = q.1 :=
      fun q hq => hcanon q (List.mem_cons_of_mem _ hq)
    rw [List.map_cons, List.nodup_cons] at hnodup
    have ih' := ih hnodup.2 hrest
    by_cases hk : key = k
    · subst hk
      have hnone : mapGet [] rest key = [] := by
        have hnot := hnodup.1
        clear ih ih' hrest hcanon hnodup
        induction rest with
        | nil => rfl
        | cons q qs ihq =>
          obtain ⟨a, b⟩ := q
          simp only [List.map_cons, List.mem_cons, not_or] at hnot
          simp only [mapGet, if_neg (Ne.symm hnot.1)]
          exact ihq hnot.2
      simp only [valuesConfigured, List.filter_cons, hkey, decide_True, if_true, List.map_cons,
        List.flatten_cons, mapGet] at ih' ⊢
      rw [ih', hnone, List.append_nil]
    · simp only [valuesConfigured, List.filter_cons, hkey, hk, decide_False, mapGet,
        if_false] at ih' ⊢
      simpa using ih'

theorem adds_isAdd (rw : ResponseWriter) (headers : Header) :
    ∀ e ∈ (headers.map fun (key, values) => values.map (Effect.headerAdd rw key)).flatten,
      e.isAdd = true := by
  intro e he
  simp only [List.mem_flatten, List.mem_map] at he
  obtain ⟨l, ⟨p, -, rfl⟩, he⟩ := he
  simp only [List.mem_map] at he
  obtain ⟨v, -, rfl⟩ := he
  rfl

theorem serveStaticResponse_shape (rc : RejectCountries) (rw : ResponseWriter)
    (req : Request) :
    ∃ adds tail, serveStaticResponse rc rw req =
        adds ++ Effect.writeHeader rw rc.staticResponse.StatusCode :: tail ∧
      adds = ((rc.staticResponse.Headers.getD []).map fun (key, values) =>
        values.map (Effect.headerAdd rw key)).flatten ∧
      tail = (if rc.staticResponse.Body ≠ "" then [Effect.write rw rc.staticResponse.Body]
        else []) ∧
      (∀ e ∈ adds, e.isAdd = true) ∧ (∀ e ∈ tail, e.isBody = true) := by
  refine ⟨_, _, ?_, rfl, rfl, adds_isAdd rw _, ?_⟩
  · simp [serveStaticResponse, rangeHeaders_eq]
  · intro e he
    split_ifs at he
    · rw [List.mem_singleton.1 he]
      rfl
    · cases he

theorem TrimSpace_eq_empty_iff (s : String) :
    TrimSpace s = "" ↔ ∀ c ∈ s.data, isSpace c = true := by
  have hdata : TrimSpace s = "" ↔ (s.data.dropWhile isSpace).rdropWhile isSpace = [] := by
    rw [String.ext_iff]
    rfl
  rw [hdata, List.rdropWhile_eq_nil_iff]
  constructor
  · intro h
    rcases hd : s.data.dropWhile isSpace with _ | ⟨c, cs⟩
    · exact List.dropWhile_eq_nil_iff.1 hd
    · have hnot := List.head?_dropWhile_not isSpace s.data
      rw [hd] at hnot h
      simp only [List.head?_cons] at hnot
      rw [h c (List.mem_cons_self _ _)] at hnot
      cases hnot
  · intro h
    rw [List.dropWhile_eq_nil_iff.2 h]
    intro x hx
    cases hx

theorem added_adds (rw : ResponseWriter) (headers : Header) :
    (headers.map fun (key, values) => values.map (Effect.headerAdd rw key)).flatten.filterMap
        Effect.added =
      (headers.map fun p => p.2.map fun v => (p.1, v)).flatten := by
  induction headers with
  | nil => rfl
  | cons p rest ih =>
    obtain ⟨key, values⟩ := p
    simp only [List.map_cons, List.flatten_cons, List.filterMap_append, ih]
    congr 1
    induction values with
    | nil => rfl
    | cons v vs ihv => simp [Effect.added, ihv]

theorem filter_eq_nil_of_isAdd (es : List Effect) (h : ∀ e ∈ es, e.isAdd = true) :
    es.filter Effect.isStatus = [] ∧ es.filter Effect.isBody = [] := by
  constructor <;>
  · rw [List.filter_eq_nil_iff]
    intro e he
    have := h e he
    cases e <;> simp_all [Effect.isAdd, Effect.isStatus, Effect.isBody]

theorem filter_of_isBody (es : List Effect) (h : ∀ e ∈ es, e.isBody = true) :
    es.filter Effect.isStatus = [] ∧ es.filterMap Effect.added = [] ∧
      es.filter Effect.isBody = es := by
  refine ⟨?_, ?_, List.filter_eq_self.2 h⟩
  · rw [List.filter_eq_nil_iff]
    intro e he
    have := h e he
    cases e <;> simp_all [Effect.isStatus, Effect.isBody]
  · rw [List.filterMap_eq_nil_iff]
    intro e he
    have := h e he
    cases e <;> simp_all [Effect.added, Effect.isBody]

/-! ## The decision -/

theorem ServeHTTP_of_no_lookup (ext : Externals) (rc : RejectCountries)
    (rw : ResponseWriter) (req : Request)
    (h : rc.lookup = none) : ServeHTTP ext rc rw req = [.serveNext rc.next rw req] := by
  simp [ServeHTTP, h]

theorem ServeHTTP_of_empty (ext : Externals) (rc : RejectCountries)
    (rw : ResponseWriter) (req : Request)
    (h : getClientIP rc req = "") : ServeHTTP ext rc rw req = [.serveNext rc.next rw req] := by
  unfold ServeHTTP
  split
  · rfl
  · simp [h]

theorem ServeHTTP_of_invalid (ext : Externals) (rc : RejectCountries)
    (rw : ResponseWriter) (req : Request)
    (lookup : RejectCountriesLookup) (hl : rc.lookup = some lookup)
    (hne : getClientIP rc req ≠ "") (hp : ext.ParseIP (getClientIP rc req) = none) :
    ServeHTTP ext rc rw req =
      [.logPrintf (.invalidIP (getClientIP rc req)), .serveNext rc.next rw req] := by
  simp [ServeHTTP, hl, hne, hp]

theorem ServeHTTP_of_lookup_error (ext : Externals) (rc : RejectCountries)
    (rw : ResponseWriter) (req : Request)
    (lookup : RejectCountriesLookup) (ip : IP) (country : String) (err : GoError)
    (hl : rc.lookup = some lookup) (hne : getClientIP rc req ≠ "")
    (hp : ext.ParseIP (getClientIP rc req) = some ip)
    (hc : lookup ip = (country, some err)) :
    ServeHTTP ext rc rw req =
      [.logPrintf (.lookupFailed (getClientIP rc req) err), .serveNext rc.next rw req] := by
  simp [ServeHTTP, hl, hne, hp, hc]

theorem ServeHTTP_of_lookup_ok (ext : Externals) (rc : RejectCountries)
    (rw : ResponseWriter) (req : Request)
    (lookup : RejectCountriesLookup) (ip : IP) (country : String)
    (hl : rc.lookup = some lookup) (hne : getClientIP rc req ≠ "")
    (hp : ext.ParseIP (getClientIP rc req) = some ip)
    (hc : lookup ip = (country, none)) :
    ServeHTTP ext rc rw req =
      if mapGet false rc.matchCountries (ToUpper ext.UpperCase country) = true then
        .logPrintf (.rejecting country (getClientIP rc req)) :: serveStaticResponse rc rw req
      else [.serveNext rc.next rw req] := by
  simp [ServeHTTP, hl, hne, hp, hc]

theorem passesThrough_next (rc : RejectCountries)
    (rw : ResponseWriter) (req : Request) :
    PassesThrough rc rw req [.serveNext rc.next rw req] := by
  simp [PassesThrough, Effect.isNext, Effect.onSink]

theorem passesThrough_log_next (rc : RejectCountries)
    (rw : ResponseWriter) (req : Request) (line : LogLine) :
    PassesThrough rc rw req [.logPrintf line, .serveNext rc.next rw req] := by
  simp [PassesThrough, Effect.isNext, Effect.onSink]

theorem blocks_log_static (rc : RejectCountries)
    (rw : ResponseWriter) (req : Request) (line : LogLine) :
    Blocks rc rw req (.logPrintf line :: serveStaticResponse rc rw req) := by
  refine ⟨⟨[.logPrintf line], rfl, by simp [Effect.onSink]⟩, ?_⟩
  intro e he
  rcases List.mem_cons.1 he with rfl | he
  · rfl
  · exact serveStaticResponse_not_next rc rw req e he

theorem not_blocks_of_passesThrough (rc : RejectCountries)
    (rw : ResponseWriter) (req : Request) (t : List Effect)
    (h : PassesThrough rc rw req t) : ¬ Blocks rc rw req t := by
  rintro ⟨-, hn⟩
  have hmem : Effect.serveNext rc.next rw req ∈ t.filter Effect.isNext := by
    rw [h.1]; exact List.mem_singleton.2 rfl
  have := hn _ (List.mem_filter.1 hmem).1
  simp [Effect.isNext] at this

theorem ServeHTTP_cases (ext : Externals) (rc : RejectCountries)
    (rw : ResponseWriter) (req : Request) :
    PassesThrough rc rw req (ServeHTTP ext rc rw req) ∨
      ∃ lookup ip country, rc.lookup = some lookup ∧ getClientIP rc req ≠ "" ∧
        ext.ParseIP (getClientIP rc req) = some ip ∧ lookup ip = (country, none) ∧
        mapGet false rc.matchCountries (ToUpper ext.UpperCase country) = true ∧
        ServeHTTP ext rc rw req =
          .logPrintf (.rejecting country (getClientIP rc req)) :: serveStaticResponse rc rw req := by
  rcases hl : rc.lookup with _ | lookup
  · left
    rw [ServeHTTP_of_no_lookup ext rc rw req hl]
    exact passesThrough_next rc rw req
  by_cases hne : getClientIP rc req = ""
  · left
    rw [ServeHTTP_of_empty ext rc rw req hne]
    exact passesThrough_next rc rw req
  rcases hp : ext.ParseIP (getClientIP rc req) with _ | ip
  · left
    rw [ServeHTTP_of_invalid ext rc rw req lookup hl hne hp]
    exact passesThrough_log_next rc rw req _
  rcases hc : lookup ip with ⟨country, _ | err⟩
  · have key := ServeHTTP_of_lookup_ok ext rc rw req lookup ip country hl hne hp hc
    by_cases hm : mapGet false rc.matchCountries (ToUpper ext.UpperCase country) = true
    · right
      rw [if_pos hm] at key
      exact ⟨lookup, ip, country, rfl, hne, rfl, hc, hm, key⟩
    · left
      rw [if_neg hm] at key
      rw [key]
      exact passesThrough_next rc rw req
  · left
    rw [ServeHTTP_of_lookup_error ext rc rw req lookup ip country err hl hne hp hc]
    exact passesThrough_log_next rc rw req _

/-! ## The client address -/

theorem getClientIP_of_forwarded (rc : RejectCountries) (req : Request)
    (hp : rc.preferXForwardedForHeader = true) (hh : req.Header.Get "X-Forwarded-For" ≠ "") :
    getClientIP rc req =
      TrimSpace ⟨(req.Header.Get "X-Forwarded-For").data.takeWhile (fun c => c != ',')⟩ := by
  obtain ⟨rest, hrest⟩ := Split_head (req.Header.Get "X-Forwarded-For") ','
  simp only [getClientIP, hp, if_true, if_pos hh, hrest]

theorem getClientIP_of_remote (rc : RejectCountries) (req : Request)
    (h : rc.preferXForwardedForHeader = false ∨ req.Header.Get "X-Forwarded-For" = "") :
    getClientIP rc req =
      match SplitHostPort req.RemoteAddr with
      | .ok (host, _) => host
      | .error _ => req.RemoteAddr := by
  unfold getClientIP
  rcases h with h | h
  · simp [h]
  · by_cases hp : rc.preferXForwardedForHeader = true
    · simp [hp, h]
    · simp [hp]

/-! ## Construction -/

theorem initGeoIPLookup_fst (ext : Externals) (rc : RejectCountries) (dbPath : String) :
    ∃ lk, (initGeoIPLookup ext rc dbPath).1 = { rc with lookup := lk } := by
  unfold initGeoIPLookup
  split_ifs
  · cases ext.NewCountryReaderFromFile dbPath
    · exact ⟨rc.lookup, rfl⟩
    · exact ⟨_, rfl⟩
  · exact ⟨rc.lookup, rfl⟩

theorem New_of_nonempty (ext : Externals) (next : Handler) (config : RejectCountriesConfig)
    (name : String) (h : config.MatchCountries ≠ []) :
    ∃ rc, (New ext next config name).handler = some rc ∧
      (New ext next config name).err = none ∧
      rc.matchCountries = buildMatchCountries ext.UpperCase [] config.MatchCountries ∧
      rc.preferXForwardedForHeader = config.PreferXForwardedForHeader ∧
      rc.next = next := by
  have hlen : ¬ config.MatchCountries.length = 0 := by
    simpa [List.length_eq_zero] using h
  unfold New
  rw [if_neg hlen]
  dsimp only
  generalize hinit : initGeoIPLookup ext _ config.DBPath = r
  obtain ⟨lk, hlk⟩ := initGeoIPLookup_fst ext _ config.DBPath
  rw [hinit] at hlk
  obtain ⟨plugin, _ | err, logs⟩ := r <;> dsimp only at hlk ⊢ <;> subst hlk <;>
    exact ⟨_, rfl, rfl, rfl, rfl, rfl⟩

theorem New_of_empty (ext : Externals) (next : Handler) (config : RejectCountriesConfig)
    (name : String) (h : config.MatchCountries = []) :
    (New ext next config name).handler = none ∧
      (New ext next config name).err = some "matchCountries cannot be empty" := by
  simp [New, h]

theorem initGeoIPLookup_fst_eq (ext : Externals) (rc : RejectCountries) (dbPath : String) :
    (initGeoIPLookup ext rc dbPath).1 =
      { rc with lookup := (initGeoIPLookup ext rc dbPath).1.lookup } := by
  unfold initGeoIPLookup
  split_ifs
  · cases ext.NewCountryReaderFromFile dbPath <;> rfl
  · rfl

theorem initGeoIPLookup_lookup_congr (ext : Externals) (rc rc' : RejectCountries)
    (dbPath : String) (h : rc.lookup = rc'.lookup) :
    (initGeoIPLookup ext rc dbPath).1.lookup = (initGeoIPLookup ext rc' dbPath).1.lookup := by
  unfold initGeoIPLookup
  split_ifs
  · cases ext.NewCountryReaderFromFile dbPath
    · exact h
    · rfl
  · exact h

theorem initGeoIPLookup_result (ext : Externals) (rc : RejectCountries) (dbPath : String)
    (r : RejectCountries × Option GoError × List LogLine)
    (h : initGeoIPLookup ext rc dbPath = r) :
    r.1 = { rc with lookup := r.1.lookup } ∧
      r.1.lookup = (initGeoIPLookup ext rc dbPath).1.lookup := by
  subst h
  exact ⟨initGeoIPLookup_fst_eq ext rc dbPath, rfl⟩

theorem New_fields (ext : Externals) (next : Handler) (config : RejectCountriesConfig)
    (name : String) (h : config.MatchCountries ≠ []) :
    ∃ rc, (New ext next config name).handler = some rc ∧
      (New ext next config name).err = none ∧
      rc.next = next ∧
      rc.preferXForwardedForHeader = config.PreferXForwardedForHeader ∧
      rc.matchCountries = buildMatchCountries ext.UpperCase [] config.MatchCountries ∧
      rc.staticResponse =
        { StatusCode :=
            if config.StaticResponse.StatusCode < 100 ∨ config.StaticResponse.StatusCode > 999
            then 200 else config.StaticResponse.StatusCode
          Headers := some (rangeHeaders config.StaticResponse)
          Body := config.StaticResponse.Body } ∧
      ∃ plugin : RejectCountries, plugin.lookup = none ∧
        rc.lookup = (initGeoIPLookup ext plugin config.DBPath).1.lookup := by
  have hlen : ¬ config.MatchCountries.length = 0 := by
    simpa [List.length_eq_zero] using h
  unfold New
  rw [if_neg hlen]
  dsimp only
  generalize hinit : initGeoIPLookup ext _ config.DBPath = r
  obtain ⟨hfst, hlk⟩ := initGeoIPLookup_result _ _ _ _ hinit
  obtain ⟨plugin, _ | err, logs⟩ := r <;> dsimp only at hfst hlk ⊢ <;>
    exact ⟨_, rfl, rfl, by rw [hfst], by rw [hfst], by rw [hfst],
      by rw [hfst]; rfl, _, rfl, hlk⟩

theorem New_handler_nonempty (ext : Externals) (next : Handler)
    (config : RejectCountriesConfig) (name : String) (rc : RejectCountries)
    (h : (New ext next config name).handler = some rc) : config.MatchCountries ≠ [] := by
  intro hempty
  rw [(New_of_empty ext next config name hempty).1] at h
  cases h

/-! ## The blocked set -/

theorem toUpperRune_idem (c : Char) : toUpperRune (toUpperRune c) = toUpperRune c := by
  unfold toUpperRune
  split_ifs with h1 h2
  · exfalso
    obtain ⟨ha, hz⟩ := h1
    have ha' : 97 ≤ c.toNat := ha
    have hz' : c.toNat ≤ 122 := hz
    have h3 : 'a' ≤ Char.ofNat (c.toNat - 32) := h2.1
    have h4 : (97 : Nat) ≤ (Char.ofNat (c.toNat - 32)).toNat := h3
    have hv : (c.toNat - 32).isValidChar := Or.inl (by omega)
    rw [Char.ofNat, dif_pos hv] at h4
    have h5 : (Char.ofNatAux (c.toNat - 32) hv).toNat = c.toNat - 32 := rfl
    rw [h5] at h4
    omega
  · rfl
  · rfl

theorem toUpperRune_ascii (c : Char) (h : c.toNat ≤ 127) : (toUpperRune c).toNat ≤ 127 := by
  unfold toUpperRune
  split_ifs with h1
  · have hz : c.toNat ≤ 122 := h1.2
    have ha : 97 ≤ c.toNat := h1.1
    have hv : (c.toNat - 32).isValidChar := Or.inl (by omega)
    rw [Char.ofNat, dif_pos hv]
    have h5 : (Char.ofNatAux (c.toNat - 32) hv).toNat = c.toNat - 32 := rfl
    rw [h5]
    omega
  · exact h

theorem unicodeToUpper_idem (U : Char → Char)
    (hU : ∀ r, 127 < r.toNat → unicodeToUpper U (U r) = U r) (r : Char) :
    unicodeToUpper U (unicodeToUpper U r) = unicodeToUpper U r := by
  by_cases hr : r.toNat ≤ 127
  · have h1 : unicodeToUpper U r = toUpperRune r := by simp [unicodeToUpper, hr]
    rw [h1]
    simp only [unicodeToUpper, toUpperRune_ascii r hr, if_true, toUpperRune_idem]
  · have h1 : unicodeToUpper U r = U r := by simp [unicodeToUpper, hr]
    rw [h1]
    exact hU r (by omega)

theorem ToUpper_idem (U : Char → Char)
    (hU : ∀ r, 127 < r.toNat → unicodeToUpper U (U r) = U r) (s : String) :
    ToUpper U (ToUpper U s) = ToUpper U s := by
  simp [ToUpper, List.map_map, Function.comp_def, unicodeToUpper_idem U hU]

theorem mem_mapSet {ν : Type} (m : List (String × ν)) (k : String) (v : ν) (p : String × ν)
    (h : p ∈ mapSet m k v) : p = (k, v) ∨ p ∈ m := by
  induction m with
  | nil =>
    simp only [mapSet, List.mem_singleton] at h
    exact Or.inl h
  | cons q rest ih =>
    obtain ⟨a, b⟩ := q
    simp only [mapSet] at h
    split_ifs at h
    · rcases List.mem_cons.1 h with h | h
      · exact Or.inl h
      · exact Or.inr (List.mem_cons_of_mem _ h)
    · rcases List.mem_cons.1 h with h | h
      · exact Or.inr (h ▸ List.mem_cons_self _ _)
      · rcases ih h with h | h
        · exact Or.inl h
        · exact Or.inr (List.mem_cons_of_mem _ h)

theorem keys_mapSet {ν : Type} (m : List (String × ν)) (k : String) (v : ν) :
    (mapSet m k v).map Prod.fst =
      if k ∈ m.map Prod.fst then m.map Prod.fst else m.map Prod.fst ++ [k] := by
  induction m with
  | nil => simp [mapSet]
  | cons q rest ih =>
    obtain ⟨a, b⟩ := q
    by_cases hak : a = k
    · subst hak
      simp [mapSet]
    · have hka : ¬ k = a := fun hh => hak hh.symm
      simp only [mapSet, if_neg hak, List.map_cons, ih, List.mem_cons, hka, false_or]
      split_ifs <;> simp

theorem nodup_keys_mapSet {ν : Type} (m : List (String × ν)) (k : String) (v : ν)
    (h : (m.map Prod.fst).Nodup) : ((mapSet m k v).map Prod.fst).Nodup := by
  rw [keys_mapSet]
  split_ifs with hk
  · exact h
  · rw [List.nodup_append]
    refine ⟨h, List.nodup_singleton k, ?_⟩
    intro a ha hb
    rw [List.mem_singleton] at hb
    exact hk (hb ▸ ha)

theorem mem_keys_mapSet {ν : Type} (m : List (String × ν)) (k k' : String) (v : ν)
    (h : k' ∈ m.map Prod.fst) : k' ∈ (mapSet m k v).map Prod.fst := by
  rw [keys_mapSet]
  split_ifs
  · exact h
  · exact List.mem_append_left _ h

theorem mem_buildMatchCountries (U : Char → Char) (l : List String)
    (m : List (String × Bool)) (p : String × Bool) (h : p ∈ buildMatchCountries U m l) :
    p ∈ m ∨ ∃ c ∈ l, p = (ToUpper U c, true) := by
  induction l generalizing m with
  | nil => exact Or.inl h
  | cons c rest ih =>
    rcases ih (mapSet m (ToUpper U c) true) h with h | ⟨d, hd, hp⟩
    · rcases mem_mapSet m _ _ p h with h | h
      · exact Or.inr ⟨c, List.mem_cons_self _ _, h⟩
      · exact Or.inl h
    · exact Or.inr ⟨d, List.mem_cons_of_mem _ hd, hp⟩

theorem nodup_keys_buildMatchCountries (U : Char → Char) (l : List String)
    (m : List (String × Bool)) (h : (m.map Prod.fst).Nodup) :
    ((buildMatchCountries U m l).map Prod.fst).Nodup := by
  induction l generalizing m with
  | nil => exact h
  | cons c rest ih => exact ih _ (nodup_keys_mapSet m _ _ h)

theorem ServeHTTP_congr (ext : Externals) (rc rc' : RejectCountries) (rw : ResponseWriter)
    (req : Request) (hn : rc.next = rc'.next)
    (hp : rc.preferXForwardedForHeader = rc'.preferXForwardedForHeader)
    (hs : rc.staticResponse = rc'.staticResponse) (hl : rc.lookup = rc'.lookup)
    (hm : ∀ k, mapGet false rc.matchCountries k = mapGet false rc'.matchCountries k) :
    ServeHTTP ext rc rw req = ServeHTTP ext rc' rw req := by
  have hip : getClientIP rc req = getClientIP rc' req := by
    unfold getClientIP
    rw [hp]
  have hstatic : serveStaticResponse rc rw req = serveStaticResponse rc' rw req := by
    unfold serveStaticResponse
    rw [hs]
  unfold ServeHTTP
  simp only [hn, hl, hip, hstatic, hm]

theorem apply_keeps_keys (self : ResponseWriter) (rec rec' : ResponseRecorder) (e : Effect)
    (k : String) (hk : k ∈ rec.HeaderMap.map Prod.fst) (h : rec.apply self e = some rec') :
    k ∈ rec'.HeaderMap.map Prod.fst := by
  cases e with
  | headerAdd w key value =>
    simp only [ResponseRecorder.apply] at h
    split_ifs at h
    · cases h
      exact mem_keys_mapSet _ _ _ _ hk
    · cases h
      exact hk
  | writeHeader w code =>
    have := apply_headerMap_of_not_isAdd self rec rec' (.writeHeader w code) rfl h
    rw [this]
    exact hk
  | write w body =>
    have := apply_headerMap_of_not_isAdd self rec rec' (.write w body) rfl h
    rw [this]
    exact hk
  | serveNext n w r => cases h; exact hk
  | logPrintf line => cases h; exact hk

theorem run_keeps_keys (self : ResponseWriter) (es : List Effect) (rec : ResponseRecorder)
    (k : String) (hk : k ∈ rec.HeaderMap.map Prod.fst) :
    k ∈ (rec.run self es).1.HeaderMap.map Prod.fst := by
  induction es generalizing rec with
  | nil => exact hk
  | cons e rest ih =>
    simp only [ResponseRecorder.run]
    cases hstep : rec.apply self e with
    | none => exact hk
    | some rec' => exact ih rec' (apply_keeps_keys self rec rec' e k hk hstep)

/-! ## Outcomes -/

theorem blocks_iff_matches (ext : Externals) (rc : RejectCountries) (rw : ResponseWriter)
    (req : Request) :
    Blocks rc rw req (ServeHTTP ext rc rw req) ↔ Matches ext rc (getClientIP rc req) := by
  constructor
  · intro hb
    rcases ServeHTTP_cases ext rc rw req with
      hpass | ⟨lookup, ip, country, h1, h2, h3, h4, h5, -⟩
    · exact absurd hb (not_blocks_of_passesThrough rc rw req _ hpass)
    · exact ⟨lookup, ip, country, h1, h2, h3, h4, h5⟩
  · rintro ⟨lookup, ip, country, h1, h2, h3, h4, h5⟩
    have key := ServeHTTP_of_lookup_ok ext rc rw req lookup ip country h1 h2 h3 h4
    rw [if_pos h5] at key
    rw [key]
    exact blocks_log_static rc rw req _

theorem passesThrough_iff_not_matches (ext : Externals) (rc : RejectCountries)
    (rw : ResponseWriter) (req : Request) :
    PassesThrough rc rw req (ServeHTTP ext rc rw req) ↔
      ¬ Matches ext rc (getClientIP rc req) := by
  constructor
  · intro hpass hm
    exact not_blocks_of_passesThrough rc rw req _ hpass
      ((blocks_iff_matches ext rc rw req).2 hm)
  · intro hm
    rcases ServeHTTP_cases ext rc rw req with
      hpass | ⟨lookup, ip, country, h1, h2, h3, h4, h5, -⟩
    · exact hpass
    · exact absurd ⟨lookup, ip, country, h1, h2, h3, h4, h5⟩ hm

/-! ## The state -/

theorem exec_values (rw : ResponseWriter) (key : String) (values : List String) (w : World) :
    values.foldl (fun w0 value => w0.call (.headerAdd rw key value)) w =
      { plugin := w.plugin, calls := w.calls ++ values.map (Effect.headerAdd rw key) } := by
  induction values generalizing w with
  | nil => simp
  | cons v vs ih =>
    rw [List.foldl_cons, ih]
    simp [World.call]

theorem exec_headers (rw : ResponseWriter) (headers : Header) (w : World) :
    headers.foldl
        (fun w0 (entry : String × List String) =>
          entry.2.foldl (fun w0 value => w0.call (.headerAdd rw entry.1 value)) w0) w =
      { plugin := w.plugin
        calls := w.calls ++
          (headers.map fun (key, values) => values.map (Effect.headerAdd rw key)).flatten } := by
  induction headers generalizing w with
  | nil => simp
  | cons p rest ih =>
    obtain ⟨key, values⟩ := p
    rw [List.foldl_cons, exec_values, ih]
    simp

theorem serveStaticResponse_exec (rw : ResponseWriter) (req : Request) (w : World) :
    serveStaticResponse.exec rw req w =
      { plugin := w.plugin, calls := w.calls ++ serveStaticResponse w.plugin rw req } := by
  unfold serveStaticResponse.exec serveStaticResponse
  simp only [exec_headers]
  simp only [World.call]
  split_ifs <;> simp

theorem ServeHTTP_exec (ext : Externals) (rw : ResponseWriter) (req : Request) (w : World) :
    ServeHTTP.exec ext rw req w =
      { plugin := w.plugin, calls := w.calls ++ ServeHTTP ext w.plugin rw req } := by
  unfold ServeHTTP.exec ServeHTTP
  cases w.plugin.lookup with
  | none => rfl
  | some lookup =>
    simp only
    split_ifs with hip
    · rfl
    · cases ext.ParseIP (getClientIP w.plugin req) with
      | none => simp [World.call]
      | some ip =>
        simp only
        rcases lookup ip with ⟨country, _ | err⟩
        · simp only
          split_ifs
          · rw [serveStaticResponse_exec]
            simp [World.call]
          · rfl
        · simp [World.call]

theorem serveAll_eq (ext : Externals) (rw : ResponseWriter) (reqs : List Request) (w : World) :
    serveAll ext rw w reqs =
      { plugin := w.plugin
        calls := w.calls ++ (reqs.map (ServeHTTP ext w.plugin rw)).flatten } := by
  induction reqs generalizing w with
  | nil => simp [serveAll]
  | cons req rest ih =>
    rw [serveAll, ih, ServeHTTP_exec]
    simp

theorem unicodeToUpper_idem_ascii (U : Char → Char) (r : Char) (hr : r.toNat ≤ 127) :
    unicodeToUpper U (unicodeToUpper U r) = unicodeToUpper U r := by
  have h1 : unicodeToUpper U r = toUpperRune r := by simp [unicodeToUpper, hr]
  rw [h1]
  simp only [unicodeToUpper, toUpperRune_ascii r hr, if_true, toUpperRune_idem]

theorem ToUpper_idem_of_ascii (U : Char → Char) (s : String)
    (h : ∀ r ∈ s.data, r.toNat ≤ 127) : ToUpper U (ToUpper U s) = ToUpper U s := by
  simp only [ToUpper, List.map_map]
  congr 1
  apply List.map_congr_left
  intro r hr
  exact unicodeToUpper_idem_ascii U r (h r hr)

theorem testExternals_upperCase_stable (r : Char) (_hr : 127 < r.toNat) :
    unicodeToUpper testExternals.UpperCase (testExternals.UpperCase r) =
      testExternals.UpperCase r := by
  by_cases h1 : r = 'ſ'
  · subst h1
    decide
  · by_cases h2 : r = 'é'
    · subst h2
      decide
    · have hU : testExternals.UpperCase r = r := by simp [testExternals, h1, h2]
      rw [hU]
      simp only [unicodeToUpper]
      rw [if_neg (by omega)]
      exact hU

/-! ## Main results -/

/-- C1: `New` returns an error exactly when `config.MatchCountries` is empty.
For the empty list it returns no handler and an error; for every non-empty list
it returns a filter and no error, whatever the environment says about the
database file (so whether or not the lookup function ends up set). -/
theorem New_error_iff_empty (ext : Externals) (next : Handler)
    (config : RejectCountriesConfig) (name : String) :
    ((New ext next config name).err ≠ none ↔ config.MatchCountries = []) ∧
    (config.MatchCountries = [] →
      (New ext next config name).handler = none ∧
        (New ext next config name).err = some "matchCountries cannot be empty") ∧
    (config.MatchCountries ≠ [] →
      (∃ rc, (New ext next config name).handler = some rc) ∧
        (New ext next config name).err = none) := by
  have hempty : config.MatchCountries = [] →
      (New ext next config name).handler = none ∧
        (New ext next config name).err = some "matchCountries cannot be empty" := by
    intro h
    simp [New, h]
  have hne : config.MatchCountries ≠ [] →
      (∃ rc, (New ext next config name).handler = some rc) ∧
        (New ext next config name).err = none := by
    intro h
    obtain ⟨rc, h1, h2, -⟩ := New_of_nonempty ext next config name h
    exact ⟨⟨rc, h1⟩, h2⟩
  refine ⟨⟨fun herr => ?_, fun h => ?_⟩, hempty, hne⟩
  · by_contra h
    exact herr (hne h).2
  · rw [(hempty h).2]
    exact Option.some_ne_none _

/-- C2: with a lookup function present, a non-empty extracted address that
parses, and a lookup that returns `country` without error, `ServeHTTP` blocks
(serves the static response and calls no downstream handler) if and only if
the upper-case form of `country` is in the blocked set.  When it is, the calls
are the rejection log line, one `Header().Add` for every configured header
value, `WriteHeader` with the configured code and, for a non-empty body,
`Write` with the body, all on the writer `ServeHTTP` was given; otherwise the
only call is the downstream handler. -/
theorem ServeHTTP_blocks_iff_country_blocked (ext : Externals) (rc : RejectCountries)
    (rw : ResponseWriter) (req : Request) (lookup : RejectCountriesLookup) (ip : IP)
    (country : String)
    (hl : rc.lookup = some lookup) (hne : getClientIP rc req ≠ "")
    (hp : ext.ParseIP (getClientIP rc req) = some ip)
    (hc : lookup ip = (country, none)) :
    (Blocks rc rw req (ServeHTTP ext rc rw req) ↔
      mapGet false rc.matchCountries (ToUpper ext.UpperCase country) = true) ∧
    (mapGet false rc.matchCountries (ToUpper ext.UpperCase country) = true →
      ServeHTTP ext rc rw req =
        .logPrintf (.rejecting country (getClientIP rc req)) ::
          (((rc.staticResponse.Headers.getD []).map fun (key, values) =>
              values.map (Effect.headerAdd rw key)).flatten ++
            Effect.writeHeader rw rc.staticResponse.StatusCode ::
              (if rc.staticResponse.Body ≠ "" then
                [Effect.write rw rc.staticResponse.Body] else [])) ∧
      ∀ e ∈ ServeHTTP ext rc rw req, e.isNext = false) ∧
    (mapGet false rc.matchCountries (ToUpper ext.UpperCase country) ≠ true →
      ServeHTTP ext rc rw req = [.serveNext rc.next rw req] ∧
        PassesThrough rc rw req (ServeHTTP ext rc rw req)) := by
  have key := ServeHTTP_of_lookup_ok ext rc rw req lookup ip country hl hne hp hc
  by_cases hm : mapGet false rc.matchCountries (ToUpper ext.UpperCase country) = true
  · rw [if_pos hm] at key
    have hblocks : Blocks rc rw req (ServeHTTP ext rc rw req) := by
      rw [key]
      exact blocks_log_static rc rw req _
    refine ⟨⟨fun _ => hm, fun _ => hblocks⟩, fun _ => ⟨?_, hblocks.2⟩, fun h => absurd hm h⟩
    obtain ⟨adds, tail, hshape, hadds, htail, -⟩ := serveStaticResponse_shape rc rw req
    rw [key, hshape, hadds, htail]
  · rw [if_neg hm] at key
    have hpass : PassesThrough rc rw req (ServeHTTP ext rc rw req) := by
      rw [key]; exact passesThrough_next rc rw req
    exact ⟨⟨fun hb => absurd hb (not_blocks_of_passesThrough rc rw req _ hpass),
      fun h => absurd h hm⟩, fun h => absurd h hm, fun _ => ⟨key, hpass⟩⟩

/-- Witness for C2: against the block-list `["GB"]`, a lookup returning "GB"
is answered by the configured response and a lookup returning "US" passes
through; against `["US"]`, a lookup returning "u" followed by a long s, whose
upper-case form is "US", is blocked. -/
theorem ServeHTTP_blocks_iff_country_blocked_witness :
    (testLookup [203, 0, 113, 7] = ("GB", none) ∧
      ServeHTTP testExternals (testFilter ["GB"] false) testWriter
          (testRequest [] "203.0.113.7:4321") =
        [.logPrintf (.rejecting "GB" "203.0.113.7"),
          .headerAdd testWriter "Content-Type" "text/plain",
          .writeHeader testWriter 403, .write testWriter "Access denied"]) ∧
    (testLookup [198, 51, 100, 9] = ("US", none) ∧
      ServeHTTP testExternals (testFilter ["GB"] false) testWriter
          (testRequest [] "198.51.100.9:4321") =
        [.serveNext ⟨1⟩ testWriter (testRequest [] "198.51.100.9:4321")]) ∧
    (testLookup [192, 0, 2, 2] = ("uſ", none) ∧
      Blocks (testFilter ["US"] false) testWriter (testRequest [] "192.0.2.2:4321")
        (ServeHTTP testExternals (testFilter ["US"] false) testWriter
          (testRequest [] "192.0.2.2:4321"))) :=
  ⟨⟨by decide,
    ((ServeHTTP_blocks_iff_country_blocked testExternals (testFilter ["GB"] false) testWriter
      (testRequest [] "203.0.113.7:4321") testLookup [203, 0, 113, 7] "GB" rfl
      (by decide) (by decide) (by decide)).2.1 (by decide)).1.trans (by decide)⟩,
   ⟨by decide,
    ((ServeHTTP_blocks_iff_country_blocked testExternals (testFilter ["GB"] false) testWriter
      (testRequest [] "198.51.100.9:4321") testLookup [198, 51, 100, 9] "US" rfl
      (by decide) (by decide) (by decide)).2.2 (by decide)).1⟩,
   ⟨by decide,
    (ServeHTTP_blocks_iff_country_blocked testExternals (testFilter ["US"] false) testWriter
      (testRequest [] "192.0.2.2:4321") testLookup [192, 0, 2, 2] "uſ" rfl
      (by decide) (by decide) (by decide)).1.2 (by decide)⟩⟩

/-- C3: a filter without a lookup function passes every request through,
whatever the request and the block-list: the downstream handler, called with
the writer and the request `ServeHTTP` was given, is the only call, and nothing
is written on the response writer. -/
theorem ServeHTTP_no_lookup_passes (ext : Externals) (rc : RejectCountries)
    (rw : ResponseWriter) (req : Request) (h : rc.lookup = none) :
    ServeHTTP ext rc rw req = [.serveNext rc.next rw req] ∧
      PassesThrough rc rw req (ServeHTTP ext rc rw req) ∧
      ¬ Blocks rc rw req (ServeHTTP ext rc rw req) := by
  have key := ServeHTTP_of_no_lookup ext rc rw req h
  have hpass : PassesThrough rc rw req (ServeHTTP ext rc rw req) := by
    rw [key]; exact passesThrough_next rc rw req
  exact ⟨key, hpass, not_blocks_of_passesThrough rc rw req _ hpass⟩

/-- Witness for C3: the filter of the test `TestRejectCountries_ServeHTTP_NoGeoIP`
(the database path does not exist) passes a request from a blocked country. -/
theorem ServeHTTP_no_lookup_passes_witness :
    ∃ rc, (New testExternals ⟨1⟩
        { testConfig ["GB"] true with DBPath := "/non/existent/path.mmdb" } "test").handler
          = some rc ∧
      rc.lookup = none ∧
      ServeHTTP testExternals rc testWriter (testRequest ["203.0.113.7"] "127.0.0.1:12345") =
        [.serveNext ⟨1⟩ testWriter (testRequest ["203.0.113.7"] "127.0.0.1:12345")] :=
  ⟨_, rfl, rfl, (ServeHTTP_no_lookup_passes testExternals _ _ _ rfl).1⟩

/-- C4: blocking happens only on a positive, successful match.  If `ServeHTTP`
makes any call on the response writer, then the lookup function is present, the
extracted address is non-empty and parses, and the lookup returned without
error a country whose upper-case form is in the blocked set.  In each
request-time failure case (empty extracted address, address that does not
parse, lookup error) the downstream handler is called exactly once and nothing
is written on the response writer; `ServeHTTP` has no error result. -/
theorem ServeHTTP_blocks_only_on_match (ext : Externals) (rc : RejectCountries)
    (rw : ResponseWriter) (req : Request) :
    ((∃ e ∈ ServeHTTP ext rc rw req, e.onSink = true) →
      ∃ lookup ip country, rc.lookup = some lookup ∧ getClientIP rc req ≠ "" ∧
        ext.ParseIP (getClientIP rc req) = some ip ∧ lookup ip = (country, none) ∧
        mapGet false rc.matchCountries (ToUpper ext.UpperCase country) = true) ∧
    (getClientIP rc req = "" → PassesThrough rc rw req (ServeHTTP ext rc rw req)) ∧
    (ext.ParseIP (getClientIP rc req) = none →
      PassesThrough rc rw req (ServeHTTP ext rc rw req)) ∧
    (∀ lookup ip country err, rc.lookup = some lookup →
      ext.ParseIP (getClientIP rc req) = some ip → lookup ip = (country, some err) →
      PassesThrough rc rw req (ServeHTTP ext rc rw req)) := by
  refine ⟨?_, ?_, ?_, ?_⟩
  · rintro ⟨e, he, hsink⟩
    rcases ServeHTTP_cases ext rc rw req with
      hpass | ⟨lookup, ip, country, h1, h2, h3, h4, h5, -⟩
    · rw [hpass.2 e he] at hsink
      exact absurd hsink (by decide)
    · exact ⟨lookup, ip, country, h1, h2, h3, h4, h5⟩
  · intro h
    rcases ServeHTTP_cases ext rc rw req with hpass | ⟨_, _, _, -, h2, -⟩
    · exact hpass
    · exact absurd h h2
  · intro h
    rcases ServeHTTP_cases ext rc rw req with hpass | ⟨_, _, _, -, -, h3, -⟩
    · exact hpass
    · rw [h] at h3
      exact absurd h3 (by simp)
  · intro lookup ip country err hl hp hc
    rcases ServeHTTP_cases ext rc rw req with
      hpass | ⟨lookup', ip', country', h1, -, h3, h4, -⟩
    · exact hpass
    · rw [hl] at h1
      rw [hp] at h3
      cases h1
      cases h3
      rw [hc] at h4
      cases h4

/-- Witness for C4: an unparsable forwarded address and an address the
database does not know are both passed through by a filter blocking "GB". -/
theorem ServeHTTP_blocks_only_on_match_witness :
    PassesThrough (testFilter ["GB"] true) testWriter
      (testRequest ["not-an-ip"] "203.0.113.7:4321")
      (ServeHTTP testExternals (testFilter ["GB"] true) testWriter
        (testRequest ["not-an-ip"] "203.0.113.7:4321")) ∧
    PassesThrough (testFilter ["GB"] true) testWriter
      (testRequest ["10.9.8.7"] "203.0.113.7:4321")
      (ServeHTTP testExternals (testFilter ["GB"] true) testWriter
        (testRequest ["10.9.8.7"] "203.0.113.7:4321")) :=
  ⟨(ServeHTTP_blocks_only_on_match testExternals (testFilter ["GB"] true) testWriter
      (testRequest ["not-an-ip"] "203.0.113.7:4321")).2.2.1 (by decide),
   (ServeHTTP_blocks_only_on_match testExternals (testFilter ["GB"] true) testWriter
      (testRequest ["10.9.8.7"] "203.0.113.7:4321")).2.2.2 testLookup [10, 9, 8, 7] ""
      "not found" rfl (by decide) (by decide)⟩

/-- C5: matching is case-insensitive on both sides.  For a filter built by
`New` from a list containing `c`, whenever a successful lookup returns a code
`d` with `ToUpper d = ToUpper c` the request is blocked: the static response is
served, status write included, and no downstream handler is called.  Whatever
the case table of package `unicode` holds, the spellings "gb", "GB" and "Gb"
have the same upper-case form, so each of them configured blocks each of them
returned. -/
theorem ServeHTTP_match_case_insensitive (ext : Externals) (next : Handler)
    (config : RejectCountriesConfig) (name : String) (rc : RejectCountries)
    (rw : ResponseWriter) (req : Request)
    (lookup : RejectCountriesLookup) (ip : IP) (c d : String)
    (hnew : (New ext next config name).handler = some rc)
    (hmem : c ∈ config.MatchCountries)
    (hcd : ToUpper ext.UpperCase d = ToUpper ext.UpperCase c)
    (hl : rc.lookup = some lookup) (hne : getClientIP rc req ≠ "")
    (hp : ext.ParseIP (getClientIP rc req) = some ip)
    (hc : lookup ip = (d, none)) :
    (ServeHTTP ext rc rw req =
        .logPrintf (.rejecting d (getClientIP rc req)) :: serveStaticResponse rc rw req ∧
      Blocks rc rw req (ServeHTTP ext rc rw req) ∧
      Effect.writeHeader rw rc.staticResponse.StatusCode ∈ ServeHTTP ext rc rw req) ∧
    ∀ U : Char → Char, ∀ x ∈ ["gb", "GB", "Gb"], ∀ y ∈ ["gb", "GB", "Gb"],
      ToUpper U x = ToUpper U y := by
  refine ⟨?_, ?_⟩
  · have hcfg : config.MatchCountries ≠ [] := List.ne_nil_of_mem hmem
    obtain ⟨rc', h1, -, hmc, -⟩ := New_of_nonempty ext next config name hcfg
    rw [hnew] at h1
    cases h1
    have hm : mapGet false rc.matchCountries (ToUpper ext.UpperCase d) = true := by
      rw [hmc, mapGet_buildMatchCountries]
      exact Or.inr ⟨c, hmem, hcd.symm⟩
    have key := ServeHTTP_of_lookup_ok ext rc rw req lookup ip d hl hne hp hc
    rw [if_pos hm] at key
    refine ⟨key, ?_, ?_⟩
    · rw [key]
      exact blocks_log_static rc rw req _
    · rw [key]
      exact List.mem_cons_of_mem _ (writeHeader_mem_serveStaticResponse rc rw req)
  · intro U x hx y hy
    simp only [List.mem_cons, List.mem_singleton, List.not_mem_nil, or_false] at hx hy
    rcases hx with rfl | rfl | rfl <;> rcases hy with rfl | rfl | rfl <;> rfl

/-- Witness for C5: "Gb" configured and "gb" returned; "u" followed by a long
s configured and "US" returned, a pair only the case table beyond ASCII makes
equal. -/
theorem ServeHTTP_match_case_insensitive_witness :
    ("Gb" ∈ (testConfig ["Gb"] false).MatchCountries ∧
      testLookup [192, 0, 2, 1] = ("gb", none) ∧
      Blocks (testFilter ["Gb"] false) testWriter (testRequest [] "192.0.2.1:4321")
        (ServeHTTP testExternals (testFilter ["Gb"] false) testWriter
          (testRequest [] "192.0.2.1:4321"))) ∧
    ("uſ" ∈ (testConfig ["uſ"] false).MatchCountries ∧
      testLookup [198, 51, 100, 9] = ("US", none) ∧
      ServeHTTP testExternals (testFilter ["uſ"] false) testWriter
          (testRequest [] "198.51.100.9:4321") =
        [.logPrintf (.rejecting "US" "198.51.100.9"),
          .headerAdd testWriter "Content-Type" "text/plain",
          .writeHeader testWriter 403, .write testWriter "Access denied"]) :=
  ⟨⟨by decide, by decide,
    (ServeHTTP_match_case_insensitive testExternals ⟨1⟩ (testConfig ["Gb"] false) "test"
      (testFilter ["Gb"] false) testWriter (testRequest [] "192.0.2.1:4321") testLookup
      [192, 0, 2, 1] "Gb" "gb" rfl (by decide) (by decide) rfl (by decide) (by decide)
      (by decide)).1.2.1⟩,
   ⟨by decide, by decide,
    ((ServeHTTP_match_case_insensitive testExternals ⟨1⟩ (testConfig ["uſ"] false) "test"
      (testFilter ["uſ"] false) testWriter (testRequest [] "198.51.100.9:4321") testLookup
      [198, 51, 100, 9] "uſ" "US" rfl (by decide) (by decide) rfl (by decide) (by decide)
      (by decide)).1.1).trans (by decide)⟩⟩

/-- C6: with the trust policy enabled and a non-empty `X-Forwarded-For` value,
`getClientIP` returns exactly the first comma-separated entry of that value
with the surrounding white space trimmed: the result satisfies that
description, it is the only string that does, and it does not depend on
`RemoteAddr`. -/
theorem getClientIP_forwarded_first_entry (rc : RejectCountries) (req : Request)
    (hp : rc.preferXForwardedForHeader = true) (hh : req.Header.Get "X-Forwarded-For" ≠ "") :
    (∃ entry, IsFirstEntry entry (req.Header.Get "X-Forwarded-For").data ∧
      IsTrimOf (getClientIP rc req).data entry) ∧
    (∀ entry r, IsFirstEntry entry (req.Header.Get "X-Forwarded-For").data →
      IsTrimOf r entry → r = (getClientIP rc req).data) ∧
    (∀ addr, getClientIP rc { req with RemoteAddr := addr } = getClientIP rc req) := by
  have key := getClientIP_of_forwarded rc req hp hh
  refine ⟨⟨_, (isFirstEntry_iff _ _).2 rfl, ?_⟩, ?_, ?_⟩
  · rw [isTrimOf_iff, key]
    rfl
  · intro entry r hentry htrim
    rw [isFirstEntry_iff] at hentry
    rw [isTrimOf_iff] at htrim
    rw [htrim, hentry, key]
    rfl
  · intro addr
    rw [key, getClientIP_of_forwarded rc { req with RemoteAddr := addr } hp hh]

/-- Witness for C6: the header values "203.0.113.7, 70.41.3.18" and
"192.168.1.1, 10.0.0.1" give "203.0.113.7" and "192.168.1.1". -/
theorem getClientIP_forwarded_first_entry_witness :
    "203.0.113.7".data =
      (getClientIP (testFilter ["GB"] true)
        (testRequest ["203.0.113.7, 70.41.3.18"] "198.51.100.9:4321")).data ∧
    "192.168.1.1".data =
      (getClientIP (testFilter ["GB"] true)
        (testRequest ["192.168.1.1, 10.0.0.1"] "127.0.0.1:12345")).data :=
  ⟨(getClientIP_forwarded_first_entry (testFilter ["GB"] true)
      (testRequest ["203.0.113.7, 70.41.3.18"] "198.51.100.9:4321") rfl (by decide)).2.1
      "203.0.113.7".data "203.0.113.7".data
      ⟨by decide, Or.inr ⟨" 70.41.3.18".data, by decide⟩⟩
      ⟨[], [], by decide, by decide, by decide, by decide, by decide⟩,
   (getClientIP_forwarded_first_entry (testFilter ["GB"] true)
      (testRequest ["192.168.1.1, 10.0.0.1"] "127.0.0.1:12345") rfl (by decide)).2.1
      "192.168.1.1".data "192.168.1.1".data
      ⟨by decide, Or.inr ⟨" 10.0.0.1".data, by decide⟩⟩
      ⟨[], [], by decide, by decide, by decide, by decide, by decide⟩⟩

/-- C7: with the trust policy disabled, or enabled with an absent or empty
`X-Forwarded-For` header, `getClientIP` uses the connection address only.  When
`net.SplitHostPort` accepts `RemoteAddr` (it is `host:port` or `[host]:port`)
the result is the host, otherwise it is `RemoteAddr` unchanged; with the policy
disabled the result is the same for every header collection. -/
theorem getClientIP_remote_addr (rc : RejectCountries) (req : Request)
    (h : rc.preferXForwardedForHeader = false ∨ req.Header.Get "X-Forwarded-For" = "") :
    (∀ host port, SplitHostPort req.RemoteAddr = .ok (host, port) →
      getClientIP rc req = host ∧
        (req.RemoteAddr.data = host.data ++ ':' :: port.data ∨
          req.RemoteAddr.data = '[' :: host.data ++ ']' :: ':' :: port.data)) ∧
    (∀ err, SplitHostPort req.RemoteAddr = .error err →
      getClientIP rc req = req.RemoteAddr) ∧
    (rc.preferXForwardedForHeader = false →
      ∀ hdr, getClientIP rc { req with Header := hdr } = getClientIP rc req) := by
  have key := getClientIP_of_remote rc req h
  refine ⟨fun host port hok => ⟨?_, SplitHostPort_ok _ _ _ hok⟩, fun err herr => ?_,
    fun hp hdr => ?_⟩
  · rw [key, hok]
  · rw [key, herr]
  · rw [key, getClientIP_of_remote rc { req with Header := hdr } (Or.inl hp)]

/-- Witness for C7: "198.51.100.9:4321" gives "198.51.100.9" with the policy
disabled and a header present, "127.0.0.1:12345" gives "127.0.0.1" with the
policy enabled and no header, and an address without a port is kept. -/
theorem getClientIP_remote_addr_witness :
    getClientIP (testFilter ["GB"] false)
      (testRequest ["203.0.113.7, 70.41.3.18"] "198.51.100.9:4321") = "198.51.100.9" ∧
    getClientIP (testFilter ["GB"] true) (testRequest [] "127.0.0.1:12345") = "127.0.0.1" ∧
    getClientIP (testFilter ["GB"] false) (testRequest ["192.168.1.1"] "198.51.100.9") =
      "198.51.100.9" :=
  ⟨((getClientIP_remote_addr (testFilter ["GB"] false)
      (testRequest ["203.0.113.7, 70.41.3.18"] "198.51.100.9:4321") (Or.inl rfl)).1
      "198.51.100.9" "4321" rfl).1,
   ((getClientIP_remote_addr (testFilter ["GB"] true)
      (testRequest [] "127.0.0.1:12345") (Or.inr (by decide))).1
      "127.0.0.1" "12345" rfl).1,
   (getClientIP_remote_addr (testFilter ["GB"] false)
      (testRequest ["192.168.1.1"] "198.51.100.9") (Or.inl rfl)).2.1 .missingPort rfl⟩

/-- Counterexample to C8 as stated: a header configured under the name
"x-custom" reaches the recorder under the name "X-Custom", so the recorder
does not hold the configured header names. -/
theorem serveStaticResponse_names_counterexample :
    lowerNameFilter.staticResponse.Headers = some [("x-custom", ["test"])] ∧
    (NewRecorder.run testWriter (serveStaticResponse lowerNameFilter testWriter
      (testRequest [] "203.0.113.7:4321"))).1.HeaderMap = [("X-Custom", ["test"])] ∧
    ¬ ∀ k, mapGet [] (NewRecorder.run testWriter (serveStaticResponse lowerNameFilter
        testWriter (testRequest [] "203.0.113.7:4321"))).1.HeaderMap k =
      mapGet [] (lowerNameFilter.staticResponse.Headers.getD []) k := by
  refine ⟨by decide, by decide, fun h => ?_⟩
  have h1 := h "x-custom"
  revert h1
  decide

/-- C8, amended: when the configured status code lies in `[100, 999]`, as it
does in every filter `New` builds, `serveStaticResponse` on a fresh recorder
runs to the end and leaves the configured status code, a body equal to the
configured body, and under every name `k` exactly the values configured under
the names whose canonical form (`CanonicalMIMEHeaderKey`, applied by
`Header.Add`) is `k`, in configured order.  When the configured names are in
canonical form, the recorder holds exactly the configured headers: the same
values, repeated ones included, under every name and nothing under any other
name.  With a code outside the range `WriteHeader` panics: no code and no body
are recorded. -/
theorem serveStaticResponse_recorded (rc : RejectCountries) (rw : ResponseWriter)
    (req : Request) :
    (100 ≤ rc.staticResponse.StatusCode → rc.staticResponse.StatusCode ≤ 999 →
      (NewRecorder.run rw (serveStaticResponse rc rw req)).2 = false ∧
      (NewRecorder.run rw (serveStaticResponse rc rw req)).1.Code =
        some rc.staticResponse.StatusCode ∧
      (NewRecorder.run rw (serveStaticResponse rc rw req)).1.Body = rc.staticResponse.Body ∧
      (∀ k, mapGet [] (NewRecorder.run rw (serveStaticResponse rc rw req)).1.HeaderMap k =
        valuesConfigured k (rc.staticResponse.Headers.getD [])) ∧
      (((rc.staticResponse.Headers.getD []).map Prod.fst).Nodup →
        (∀ p ∈ rc.staticResponse.Headers.getD [], CanonicalMIMEHeaderKey p.1 = p.1) →
        ∀ k, mapGet [] (NewRecorder.run rw (serveStaticResponse rc rw req)).1.HeaderMap k =
          mapGet [] (rc.staticResponse.Headers.getD []) k)) ∧
    (rc.staticResponse.StatusCode < 100 ∨ rc.staticResponse.StatusCode > 999 →
      (NewRecorder.run rw (serveStaticResponse rc rw req)).2 = true ∧
      (NewRecorder.run rw (serveStaticResponse rc rw req)).1.Code = none ∧
      (NewRecorder.run rw (serveStaticResponse rc rw req)).1.Body = "") := by
  obtain ⟨adds, tail, hshape, hadds, htail, hisAdd, -⟩ := serveStaticResponse_shape rc rw req
  obtain ⟨hrun, hcode, hbody, hmap⟩ := run_adds rw adds NewRecorder hisAdd
  have hsplit : NewRecorder.run rw (serveStaticResponse rc rw req) =
      (NewRecorder.run rw adds).1.run rw
        (Effect.writeHeader rw rc.staticResponse.StatusCode :: tail) := by
    rw [hshape, run_append, hrun]
    simp
  constructor
  · intro hlo hhi
    have htl := run_status_body rw (NewRecorder.run rw adds).1 rc.staticResponse.StatusCode
      rc.staticResponse.Body hcode hlo hhi
    rw [← htail, ← hsplit] at htl
    have hvalues : ∀ k,
        mapGet [] (NewRecorder.run rw (serveStaticResponse rc rw req)).1.HeaderMap k =
          valuesConfigured k (rc.staticResponse.Headers.getD []) := by
      intro k
      rw [htl]
      simp only
      rw [hmap k, hadds, valuesAdded_headers]
      rfl
    refine ⟨?_, ?_, ?_, hvalues, fun hnodup hcanon k => ?_⟩
    · rw [htl]
    · rw [htl]
    · rw [htl]
      simp only
      rw [hbody]
      exact String.ext (by simp [NewRecorder])
    · rw [hvalues k, valuesConfigured_of_canonical k _ hnodup hcanon]
  · intro hbad
    have htl := run_status_panics rw (NewRecorder.run rw adds).1 rc.staticResponse.StatusCode
      tail hcode hbad
    rw [← hsplit] at htl
    rw [htl]
    exact ⟨rfl, hcode, hbody⟩

/-- Witness for C8: the response of the test
`TestRejectCountries_ServeStaticResponse`, whose header names are canonical and
whose code is 403. -/
theorem serveStaticResponse_recorded_witness :
    NewRecorder.run testWriter
        (serveStaticResponse staticTestFilter testWriter (testRequest [] "203.0.113.7:4321")) =
      ({ HeaderMap := [("Content-Type", ["text/plain"]), ("X-Custom", ["test"])]
         Code := some 403
         Body := "Access denied from your country" }, false) ∧
    (NewRecorder.run testWriter (serveStaticResponse staticTestFilter testWriter
        (testRequest [] "203.0.113.7:4321"))).1.Code = some 403 ∧
    ∀ k, mapGet [] (NewRecorder.run testWriter (serveStaticResponse staticTestFilter
        testWriter (testRequest [] "203.0.113.7:4321"))).1.HeaderMap k =
      mapGet [] [("Content-Type", ["text/plain"]), ("X-Custom", ["test"])] k :=
  ⟨by decide,
    ((serveStaticResponse_recorded staticTestFilter testWriter
      (testRequest [] "203.0.113.7:4321")).1 (by decide) (by decide)).2.1,
    ((serveStaticResponse_recorded staticTestFilter testWriter
      (testRequest [] "203.0.113.7:4321")).1 (by decide) (by decide)).2.2.2.2
      (by decide) (by decide)⟩

/-- C9: `serveStaticResponse` issues its calls in a fixed order, all on the
writer it was given.  The calls are one `Header().Add` for every value of every
entry of the configured `Headers` (entries in the order of the range, values in
configured order), then one `WriteHeader` with the configured code, then one
`Write` with the whole body if and only if the body is not empty: no header is
added after the status write and no body byte is written before it. -/
theorem serveStaticResponse_order (rc : RejectCountries) (rw : ResponseWriter)
    (req : Request) :
    serveStaticResponse rc rw req =
      ((rc.staticResponse.Headers.getD []).map fun (key, values) =>
          values.map (Effect.headerAdd rw key)).flatten ++
        Effect.writeHeader rw rc.staticResponse.StatusCode ::
          (if rc.staticResponse.Body ≠ "" then [Effect.write rw rc.staticResponse.Body]
            else []) ∧
    (∃ adds tail, serveStaticResponse rc rw req =
        adds ++ Effect.writeHeader rw rc.staticResponse.StatusCode :: tail ∧
      (∀ e ∈ adds, e.isAdd = true) ∧ (∀ e ∈ tail, e.isBody = true)) ∧
    (serveStaticResponse rc rw req).filterMap Effect.added =
      ((rc.staticResponse.Headers.getD []).map fun p => p.2.map fun v => (p.1, v)).flatten ∧
    (serveStaticResponse rc rw req).filter Effect.isStatus =
      [Effect.writeHeader rw rc.staticResponse.StatusCode] ∧
    (serveStaticResponse rc rw req).filter Effect.isBody =
      (if rc.staticResponse.Body ≠ "" then [Effect.write rw rc.staticResponse.Body]
        else []) := by
  obtain ⟨adds, tail, hshape, hadds, htail, hisAdd, hisBody⟩ :=
    serveStaticResponse_shape rc rw req
  obtain ⟨ha1, ha2⟩ := filter_eq_nil_of_isAdd adds hisAdd
  obtain ⟨hb1, hb2, hb3⟩ := filter_of_isBody tail hisBody
  refine ⟨?_, ⟨adds, tail, hshape, hisAdd, hisBody⟩, ?_, ?_, ?_⟩
  · rw [hshape, hadds, htail]
  · rw [hshape, List.filterMap_append, List.filterMap_cons, hb2, hadds, added_adds]
    simp [Effect.added]
  · rw [hshape, List.filter_append, List.filter_cons, ha1, hb1]
    simp [Effect.isStatus]
  · rw [hshape, List.filter_append, List.filter_cons, ha2, hb3, htail]
    simp [Effect.isBody]

/-- Witness for C9: a response with a header of two values, a second header
and an empty body gives three additions in configured order and the status
write, and no body write; the response of the tests ends with its body. -/
theorem serveStaticResponse_order_witness :
    serveStaticResponse multiValueFilter testWriter (testRequest [] "203.0.113.7:4321") =
      [.headerAdd testWriter "Set-Cookie" "a=1", .headerAdd testWriter "Set-Cookie" "b=2",
        .headerAdd testWriter "X-Custom" "test", .writeHeader testWriter 451] ∧
    serveStaticResponse staticTestFilter testWriter (testRequest [] "203.0.113.7:4321") =
      [.headerAdd testWriter "Content-Type" "text/plain",
        .headerAdd testWriter "X-Custom" "test", .writeHeader testWriter 403,
        .write testWriter "Access denied from your country"] :=
  ⟨(serveStaticResponse_order multiValueFilter testWriter
      (testRequest [] "203.0.113.7:4321")).1.trans (by decide),
   (serveStaticResponse_order staticTestFilter testWriter
      (testRequest [] "203.0.113.7:4321")).1.trans (by decide)⟩

/-- Counterexample to C10 as stated: the connection address
"198.51.100.9:4321" carries the host "198.51.100.9", yet with the trust policy
enabled and the `X-Forwarded-For` value ", 70.41.3.18", whose first entry is
empty, `getClientIP` returns the empty string. -/
theorem getClientIP_nonempty_counterexample :
    SplitHostPort "198.51.100.9:4321" = .ok ("198.51.100.9", "4321") ∧
    (testFilter ["GB"] true).preferXForwardedForHeader = true ∧
    getClientIP (testFilter ["GB"] true)
      (testRequest [", 70.41.3.18"] "198.51.100.9:4321") = "" :=
  ⟨rfl, rfl, by decide⟩

/-- C10, amended: when the trust policy is disabled or the `X-Forwarded-For`
header is absent or empty, `getClientIP` is non-empty for every request whose
connection address carries a non-empty host (the host `net.SplitHostPort`
returns, or the whole address when it has no `host:port` shape).  When the
policy is enabled and the header is non-empty, the connection address is not
consulted: the result is empty exactly when the first comma-separated entry of
the header is white space only. -/
theorem getClientIP_nonempty (rc : RejectCountries) (req : Request) :
    ((rc.preferXForwardedForHeader = false ∨ req.Header.Get "X-Forwarded-For" = "") →
      (∀ host port, SplitHostPort req.RemoteAddr = .ok (host, port) → host ≠ "" →
        getClientIP rc req ≠ "") ∧
      (∀ err, SplitHostPort req.RemoteAddr = .error err → req.RemoteAddr ≠ "" →
        getClientIP rc req ≠ "")) ∧
    (rc.preferXForwardedForHeader = true → req.Header.Get "X-Forwarded-For" ≠ "" →
      (getClientIP rc req = "" ↔
        ∃ entry, IsFirstEntry entry (req.Header.Get "X-Forwarded-For").data ∧
          ∀ c ∈ entry, isSpace c = true)) := by
  refine ⟨fun h => ?_, fun hp hh => ?_⟩
  · have key := getClientIP_of_remote rc req h
    refine ⟨fun host port hok hne => ?_, fun err herr hne => ?_⟩
    · rw [key, hok]
      exact hne
    · rw [key, herr]
      exact hne
  · rw [getClientIP_of_forwarded rc req hp hh, TrimSpace_eq_empty_iff]
    constructor
    · intro hall
      exact ⟨_, (isFirstEntry_iff _ _).2 rfl, hall⟩
    · rintro ⟨entry, hentry, hall⟩
      rw [isFirstEntry_iff] at hentry
      rw [← hentry]
      exact hall

/-- Witness for C10: "198.51.100.9:4321" gives a non-empty address under the
disabled policy whatever the header holds, and under the enabled policy when
there is no header. -/
theorem getClientIP_nonempty_witness :
    getClientIP (testFilter ["GB"] false)
      (testRequest [", 70.41.3.18"] "198.51.100.9:4321") ≠ "" ∧
    getClientIP (testFilter ["GB"] true) (testRequest [] "198.51.100.9:4321") ≠ "" :=
  ⟨((getClientIP_nonempty (testFilter ["GB"] false)
      (testRequest [", 70.41.3.18"] "198.51.100.9:4321")).1 (Or.inl rfl)).1
      "198.51.100.9" "4321" rfl (by decide),
   ((getClientIP_nonempty (testFilter ["GB"] true)
      (testRequest [] "198.51.100.9:4321")).1 (Or.inr (by decide))).1
      "198.51.100.9" "4321" rfl (by decide)⟩

/-- C11: for every configuration with a non-empty country list, `New` succeeds
and the status code of the filter is the configured one when that lies in
`[100, 999]` and 200 otherwise; so the status code of every constructed filter
lies in `[100, 999]` and the status code never makes `New` fail. -/
theorem New_status_code (ext : Externals) (next : Handler) (config : RejectCountriesConfig)
    (name : String) (h : config.MatchCountries ≠ []) :
    ∃ rc, (New ext next config name).handler = some rc ∧
      (New ext next config name).err = none ∧
      (100 ≤ config.StaticResponse.StatusCode → config.StaticResponse.StatusCode ≤ 999 →
        rc.staticResponse.StatusCode = config.StaticResponse.StatusCode) ∧
      (config.StaticResponse.StatusCode < 100 ∨ 999 < config.StaticResponse.StatusCode →
        rc.staticResponse.StatusCode = 200) ∧
      100 ≤ rc.staticResponse.StatusCode ∧ rc.staticResponse.StatusCode ≤ 999 := by
  obtain ⟨rc, h1, h2, -, -, -, hs, -⟩ := New_fields ext next config name h
  refine ⟨rc, h1, h2, fun hlo hhi => ?_, fun hout => ?_, ?_, ?_⟩ <;> rw [hs] <;> dsimp only
  · rw [if_neg (by omega)]
  · rw [if_pos (by omega)]
  · split_ifs <;> omega
  · split_ifs <;> omega

/-- Witness for C11: the configured codes 403, 42, 1000 and -1 give the filter
codes 403, 200, 200 and 200. -/
theorem New_status_code_witness :
    (∃ rc, (New testExternals ⟨1⟩ (statusConfig 403) "test").handler = some rc ∧
      rc.staticResponse.StatusCode = 403) ∧
    (∃ rc, (New testExternals ⟨1⟩ (statusConfig 42) "test").handler = some rc ∧
      rc.staticResponse.StatusCode = 200) ∧
    (∃ rc, (New testExternals ⟨1⟩ (statusConfig 1000) "test").handler = some rc ∧
      rc.staticResponse.StatusCode = 200) ∧
    (∃ rc, (New testExternals ⟨1⟩ (statusConfig (-1)) "test").handler = some rc ∧
      rc.staticResponse.StatusCode = 200) :=
  ⟨(New_status_code testExternals ⟨1⟩ (statusConfig 403) "test" (by decide)).imp
      fun _ hrc => ⟨hrc.1, hrc.2.2.1 (by decide) (by decide)⟩,
   (New_status_code testExternals ⟨1⟩ (statusConfig 42) "test" (by decide)).imp
      fun _ hrc => ⟨hrc.1, hrc.2.2.2.1 (Or.inl (by decide))⟩,
   (New_status_code testExternals ⟨1⟩ (statusConfig 1000) "test" (by decide)).imp
      fun _ hrc => ⟨hrc.1, hrc.2.2.2.1 (Or.inr (by decide))⟩,
   (New_status_code testExternals ⟨1⟩ (statusConfig (-1)) "test" (by decide)).imp
      fun _ hrc => ⟨hrc.1, hrc.2.2.2.1 (Or.inl (by decide))⟩⟩

/-- C12: with a lookup function present, when the lookup of the extracted
address succeeds with a country that is not in the blocked set, `ServeHTTP`
calls the downstream handler exactly once, with the response writer and the
request it was given, and makes no call on a response writer: no header added,
no status written, no body written, so the recorder behind any writer is left
as it was. -/
theorem ServeHTTP_not_blocked_no_write (ext : Externals) (rc : RejectCountries)
    (rw : ResponseWriter) (req : Request) (lookup : RejectCountriesLookup) (ip : IP)
    (country : String)
    (hl : rc.lookup = some lookup)
    (hp : ext.ParseIP (getClientIP rc req) = some ip)
    (hc : lookup ip = (country, none))
    (hm : mapGet false rc.matchCountries (ToUpper ext.UpperCase country) = false) :
    ServeHTTP ext rc rw req = [.serveNext rc.next rw req] ∧
    (ServeHTTP ext rc rw req).filter Effect.isNext = [.serveNext rc.next rw req] ∧
    (∀ e ∈ ServeHTTP ext rc rw req,
      e.isAdd = false ∧ e.isStatus = false ∧ e.isBody = false ∧ e.onSink = false) ∧
    ∀ (self : ResponseWriter) (rec : ResponseRecorder),
      rec.run self (ServeHTTP ext rc rw req) = (rec, false) := by
  have key : ServeHTTP ext rc rw req = [.serveNext rc.next rw req] := by
    by_cases hne : getClientIP rc req = ""
    · exact ServeHTTP_of_empty ext rc rw req hne
    · rw [ServeHTTP_of_lookup_ok ext rc rw req lookup ip country hl hne hp hc, hm]
      rfl
  rw [key]
  refine ⟨rfl, rfl, ?_, fun self rec => rfl⟩
  intro e he
  rw [List.mem_singleton.1 he]
  exact ⟨rfl, rfl, rfl, rfl⟩

/-- Witness for C12: a filter built by `New` for the block-list `["GB"]` is
called with a request that resolves to "US". -/
theorem ServeHTTP_not_blocked_no_write_witness :
    (New testExternals ⟨1⟩ (testConfig ["GB"] false) "test").handler =
      some (testFilter ["GB"] false) ∧
    testLookup [198, 51, 100, 9] = ("US", none) ∧
    ServeHTTP testExternals (testFilter ["GB"] false) testWriter
        (testRequest [] "198.51.100.9:4321") =
      [.serveNext ⟨1⟩ testWriter (testRequest [] "198.51.100.9:4321")] ∧
    NewRecorder.run testWriter (ServeHTTP testExternals (testFilter ["GB"] false) testWriter
      (testRequest [] "198.51.100.9:4321")) = (NewRecorder, false) :=
  ⟨rfl, by decide,
    (ServeHTTP_not_blocked_no_write testExternals (testFilter ["GB"] false) testWriter
      (testRequest [] "198.51.100.9:4321") testLookup [198, 51, 100, 9] "US" rfl
      (by decide) (by decide) (by decide)).1,
    (ServeHTTP_not_blocked_no_write testExternals (testFilter ["GB"] false) testWriter
      (testRequest [] "198.51.100.9:4321") testLookup [198, 51, 100, 9] "US" rfl
      (by decide) (by decide) (by decide)).2.2.2 testWriter NewRecorder⟩

/-- C13: the blocked set `New` builds is exactly the set of upper-case forms
of the configured codes, whatever the case table of package `unicode` holds.
A code is a member if and only if it is `ToUpper c` for a configured `c`; the
map holds every code once, with the value `true`; and a second list with the
same set of upper-case forms (a list differing in order, repetition or letter
case only) gives the same membership for every code and the same calls of
`ServeHTTP` for every request. -/
theorem New_blocked_set (ext : Externals) (next : Handler) (config : RejectCountriesConfig)
    (name : String) (rc : RejectCountries)
    (h : (New ext next config name).handler = some rc) :
    (∀ k, mapGet false rc.matchCountries k = true ↔
      ∃ c ∈ config.MatchCountries, ToUpper ext.UpperCase c = k) ∧
    (rc.matchCountries.map Prod.fst).Nodup ∧
    (∀ p ∈ rc.matchCountries, p.2 = true) ∧
    ∀ codes rc',
      (New ext next { config with MatchCountries := codes } name).handler = some rc' →
      (∀ k, k ∈ codes.map (ToUpper ext.UpperCase) ↔
        k ∈ config.MatchCountries.map (ToUpper ext.UpperCase)) →
      (∀ k, mapGet false rc'.matchCountries k = mapGet false rc.matchCountries k) ∧
        ∀ rw req, ServeHTTP ext rc' rw req = ServeHTTP ext rc rw req := by
  have hne := New_handler_nonempty ext next config name rc h
  obtain ⟨rc0, h0, -, hn, hp, hmc, hs, plugin, hpl, hlk⟩ := New_fields ext next config name hne
  rw [h] at h0
  cases h0
  have hmem : ∀ k, mapGet false rc.matchCountries k = true ↔
      ∃ c ∈ config.MatchCountries, ToUpper ext.UpperCase c = k := by
    intro k
    rw [hmc, mapGet_buildMatchCountries]
    simp [mapGet]
  refine ⟨hmem, ?_, ?_, ?_⟩
  · rw [hmc]
    exact nodup_keys_buildMatchCountries _ _ [] List.nodup_nil
  · intro p hp'
    rw [hmc] at hp'
    rcases mem_buildMatchCountries _ _ [] p hp' with hnil | ⟨c, -, rfl⟩
    · cases hnil
    · rfl
  · intro codes rc' h' hsame
    have hne' := New_handler_nonempty ext next _ name rc' h'
    obtain ⟨rc1, h1, -, hn', hp1, hmc', hs', plugin', hpl', hlk'⟩ :=
      New_fields ext next { config with MatchCountries := codes } name hne'
    rw [h'] at h1
    cases h1
    have hget : ∀ k, mapGet false rc'.matchCountries k = mapGet false rc.matchCountries k := by
      intro k
      have h1 : mapGet false rc'.matchCountries k = true ↔
          mapGet false rc.matchCountries k = true := by
        rw [hmem k, hmc', mapGet_buildMatchCountries]
        have hk := hsame k
        simp only [List.mem_map] at hk
        simpa [mapGet] using hk
      cases hb : mapGet false rc.matchCountries k
      · cases hb' : mapGet false rc'.matchCountries k
        · rfl
        · rw [h1.1 hb'] at hb
          cases hb
      · exact h1.2 hb
    refine ⟨hget, fun rw req => ServeHTTP_congr ext rc' rc rw req ?_ ?_ ?_ ?_ hget⟩
    · rw [hn, hn']
    · rw [hp, hp1]
    · rw [hs, hs']
    · rw [hlk, hlk']
      exact initGeoIPLookup_lookup_congr ext plugin' plugin _ (hpl'.trans hpl.symm)

/-- Witness for C13: the lists `["gb", "US", "GB"]` and `["us", "Gb"]` give the
same calls, although the entries of the two maps come in a different order; and
a configured "u" followed by a long s makes "US" a member. -/
theorem New_blocked_set_witness :
    (testFilter ["gb", "US", "GB"] false).matchCountries = [("GB", true), ("US", true)] ∧
    (testFilter ["us", "Gb"] false).matchCountries = [("US", true), ("GB", true)] ∧
    (∀ rw req, ServeHTTP testExternals (testFilter ["us", "Gb"] false) rw req =
      ServeHTTP testExternals (testFilter ["gb", "US", "GB"] false) rw req) ∧
    mapGet false (testFilter ["uſ"] false).matchCountries "US" = true :=
  ⟨by decide, by decide,
    ((New_blocked_set testExternals ⟨1⟩ (testConfig ["gb", "US", "GB"] false) "test"
      (testFilter ["gb", "US", "GB"] false) rfl).2.2.2 ["us", "Gb"]
      (testFilter ["us", "Gb"] false) rfl
      (fun k => by
        have h1 : List.map (ToUpper testExternals.UpperCase) ["us", "Gb"] = ["US", "GB"] := by
          decide
        have h2 : (testConfig ["gb", "US", "GB"] false).MatchCountries.map
            (ToUpper testExternals.UpperCase) = ["GB", "US", "GB"] := by decide
        rw [h1, h2]
        simp only [List.mem_cons, List.mem_singleton, List.not_mem_nil, or_false]
        tauto)).2,
    ((New_blocked_set testExternals ⟨1⟩ (testConfig ["uſ"] false) "test"
      (testFilter ["uſ"] false) rfl).1 "US").2 ⟨"uſ", by decide, by decide⟩⟩

/-- C14: every filter `New` constructs has a non-empty blocked set whose
members are the upper-case forms `ToUpper c` of the configured codes.  Each
member equals its own `ToUpper` when the configured codes are ASCII, as
two-letter country codes are, and for arbitrary codes when the case table of
package `unicode` sends every rune beyond ASCII to a rune `unicode.ToUpper`
leaves fixed.  Serving requests never changes the blocked set: `ServeHTTP`
leaves the plugin behind its receiver as it found it, after one request and
after any sequence of requests, so the invariant holds for the filter's whole
lifetime. -/
theorem New_blocked_set_invariant (ext : Externals) (next : Handler)
    (config : RejectCountriesConfig) (name : String) (rc : RejectCountries)
    (h : (New ext next config name).handler = some rc) :
    (rc.matchCountries ≠ [] ∧ ∃ k, mapGet false rc.matchCountries k = true) ∧
    (∀ p ∈ rc.matchCountries,
      p.2 = true ∧ ∃ c ∈ config.MatchCountries, p.1 = ToUpper ext.UpperCase c) ∧
    ((∀ c ∈ config.MatchCountries, ∀ r ∈ c.data, r.toNat ≤ 127) →
      (∀ p ∈ rc.matchCountries, ToUpper ext.UpperCase p.1 = p.1) ∧
        ∀ k, mapGet false rc.matchCountries k = true → ToUpper ext.UpperCase k = k) ∧
    ((∀ r, 127 < r.toNat →
        unicodeToUpper ext.UpperCase (ext.UpperCase r) = ext.UpperCase r) →
      (∀ p ∈ rc.matchCountries, ToUpper ext.UpperCase p.1 = p.1) ∧
        ∀ k, mapGet false rc.matchCountries k = true → ToUpper ext.UpperCase k = k) ∧
    (∀ rw req calls,
      (ServeHTTP.exec ext rw req ⟨rc, calls⟩).plugin.matchCountries = rc.matchCountries) ∧
    ∀ rw reqs calls,
      (serveAll ext rw ⟨rc, calls⟩ reqs).plugin.matchCountries = rc.matchCountries := by
  have hne := New_handler_nonempty ext next config name rc h
  obtain ⟨rc0, h0, -, -, -, hmc, -⟩ := New_fields ext next config name hne
  rw [h] at h0
  cases h0
  have hmem : ∀ k, mapGet false rc.matchCountries k = true ↔
      ∃ c ∈ config.MatchCountries, ToUpper ext.UpperCase c = k := by
    intro k
    rw [hmc, mapGet_buildMatchCountries]
    simp [mapGet]
  have hentry : ∀ p ∈ rc.matchCountries,
      p.2 = true ∧ ∃ c ∈ config.MatchCountries, p.1 = ToUpper ext.UpperCase c := by
    intro p hp
    rw [hmc] at hp
    rcases mem_buildMatchCountries _ _ [] p hp with hnil | ⟨d, hd, rfl⟩
    · cases hnil
    · exact ⟨rfl, d, hd, rfl⟩
  obtain ⟨c, hc⟩ := List.exists_mem_of_ne_nil _ hne
  have hex : mapGet false rc.matchCountries (ToUpper ext.UpperCase c) = true :=
    (hmem _).2 ⟨c, hc, rfl⟩
  refine ⟨⟨?_, ToUpper ext.UpperCase c, hex⟩, hentry, fun hascii => ⟨?_, ?_⟩,
    fun hU => ⟨?_, ?_⟩, fun rw req calls => ?_, fun rw reqs calls => ?_⟩
  · intro hnil
    rw [hnil] at hex
    simp [mapGet] at hex
  · intro p hp
    obtain ⟨-, d, hd, hpd⟩ := hentry p hp
    rw [hpd]
    exact ToUpper_idem_of_ascii _ d (hascii d hd)
  · intro k hk
    obtain ⟨d, hd, rfl⟩ := (hmem k).1 hk
    exact ToUpper_idem_of_ascii _ d (hascii d hd)
  · intro p hp
    obtain ⟨-, d, -, hpd⟩ := hentry p hp
    rw [hpd]
    exact ToUpper_idem _ hU d
  · intro k hk
    obtain ⟨d, -, rfl⟩ := (hmem k).1 hk
    exact ToUpper_idem _ hU d
  · rw [ServeHTTP_exec]
  · rw [serveAll_eq]

/-- Witness for C14: the filter built from `["gb", "US", "GB"]` holds "GB" and
"US", each its own upper-case form, and still holds them after two requests,
one blocked and one passed; the filter built from "u" followed by a long s
holds "US" under a case table that knows the long s. -/
theorem New_blocked_set_invariant_witness :
    (testFilter ["gb", "US", "GB"] false).matchCountries = [("GB", true), ("US", true)] ∧
    ToUpper testExternals.UpperCase "GB" = "GB" ∧
    (serveAll testExternals testWriter ⟨testFilter ["gb", "US", "GB"] false, []⟩
      [testRequest [] "203.0.113.7:4321", testRequest [] "10.9.8.7:80"]).plugin.matchCountries =
      [("GB", true), ("US", true)] ∧
    (testFilter ["uſ"] false).matchCountries = [("US", true)] ∧
    ToUpper testExternals.UpperCase "US" = "US" :=
  ⟨by decide,
    ((New_blocked_set_invariant testExternals ⟨1⟩ (testConfig ["gb", "US", "GB"] false) "test"
      (testFilter ["gb", "US", "GB"] false) rfl).2.2.1 (by decide)).2 "GB" (by decide),
    ((New_blocked_set_invariant testExternals ⟨1⟩ (testConfig ["gb", "US", "GB"] false) "test"
      (testFilter ["gb", "US", "GB"] false) rfl).2.2.2.2.2 testWriter _ []).trans (by decide),
    by decide,
    ((New_blocked_set_invariant testExternals ⟨1⟩ (testConfig ["uſ"] false) "test"
      (testFilter ["uſ"] false) rfl).2.2.2.1 testExternals_upperCase_stable).2 "US"
      (by decide)⟩

/-- C15: the decision is deterministic and leaves the filter alone.  Served
in any state, a request leaves the plugin behind the receiver as it was (trust
flag, blocked set, static response and lookup function included) and adds to
the calls issued exactly the calls the decision gives for that plugin; a second
call with the same request adds the same calls again, as does any number of
repetitions; and those calls are one of the two outcomes, never both.  The
lookup is a function of the address. -/
theorem ServeHTTP_idempotent (ext : Externals) (rw : ResponseWriter) (req : Request)
    (w : World) :
    ((ServeHTTP.exec ext rw req w).plugin.preferXForwardedForHeader =
        w.plugin.preferXForwardedForHeader ∧
      (ServeHTTP.exec ext rw req w).plugin.matchCountries = w.plugin.matchCountries ∧
      (ServeHTTP.exec ext rw req w).plugin.staticResponse = w.plugin.staticResponse ∧
      (ServeHTTP.exec ext rw req w).plugin.lookup = w.plugin.lookup ∧
      (ServeHTTP.exec ext rw req w).plugin.next = w.plugin.next) ∧
    (ServeHTTP.exec ext rw req w).calls = w.calls ++ ServeHTTP ext w.plugin rw req ∧
    (ServeHTTP.exec ext rw req (ServeHTTP.exec ext rw req w)).calls =
      (ServeHTTP.exec ext rw req w).calls ++ ServeHTTP ext w.plugin rw req ∧
    (∀ n, (serveAll ext rw w (List.replicate n req)).calls =
        w.calls ++ (List.replicate n (ServeHTTP ext w.plugin rw req)).flatten ∧
      (serveAll ext rw w (List.replicate n req)).plugin.matchCountries =
        w.plugin.matchCountries) ∧
    (Blocks w.plugin rw req (ServeHTTP ext w.plugin rw req) ↔
      ¬ PassesThrough w.plugin rw req (ServeHTTP ext w.plugin rw req)) := by
  refine ⟨?_, ?_, ?_, fun n => ?_, ?_⟩
  · rw [ServeHTTP_exec]
    exact ⟨rfl, rfl, rfl, rfl, rfl⟩
  · rw [ServeHTTP_exec]
  · rw [ServeHTTP_exec, ServeHTTP_exec]
  · rw [serveAll_eq, List.map_replicate]
    exact ⟨rfl, rfl⟩
  · rw [blocks_iff_matches, passesThrough_iff_not_matches, not_not]

/-- Witness for C15: the same blocked request served twice by the filter of
`testFilter` issues the same four calls twice. -/
theorem ServeHTTP_idempotent_witness :
    (ServeHTTP.exec testExternals testWriter (testRequest [] "203.0.113.7:4321")
      (ServeHTTP.exec testExternals testWriter (testRequest [] "203.0.113.7:4321")
        ⟨testFilter ["GB"] false, []⟩)).calls =
      [.logPrintf (.rejecting "GB" "203.0.113.7"),
        .headerAdd testWriter "Content-Type" "text/plain",
        .writeHeader testWriter 403, .write testWriter "Access denied",
        .logPrintf (.rejecting "GB" "203.0.113.7"),
        .headerAdd testWriter "Content-Type" "text/plain",
        .writeHeader testWriter 403, .write testWriter "Access denied"] ∧
    (ServeHTTP.exec testExternals testWriter (testRequest [] "203.0.113.7:4321")
      ⟨testFilter ["GB"] false, []⟩).plugin.matchCountries = [("GB", true)] :=
  ⟨(ServeHTTP_idempotent testExternals testWriter (testRequest [] "203.0.113.7:4321")
      ⟨testFilter ["GB"] false, []⟩).2.2.1.trans (by decide),
   (ServeHTTP_idempotent testExternals testWriter (testRequest [] "203.0.113.7:4321")
      ⟨testFilter ["GB"] false, []⟩).1.2.1.trans (by decide)⟩

/-- C16: `CreateConfig` returns the default configuration: the database path
"/mmdb/GeoLite2-Country.mmdb", the trust policy enabled, no country, and a
static response with status 200, an empty header collection that is not nil,
and an empty body. -/
theorem CreateConfig_default :
    CreateConfig.DBPath = "/mmdb/GeoLite2-Country.mmdb" ∧
    CreateConfig.PreferXForwardedForHeader = true ∧
    CreateConfig.MatchCountries = [] ∧
    CreateConfig.StaticResponse.StatusCode = 200 ∧
    CreateConfig.StaticResponse.Headers = some [] ∧
    CreateConfig.StaticResponse.Body = "" ∧
    CreateConfig =
      { DBPath := "/mmdb/GeoLite2-Country.mmdb"
        PreferXForwardedForHeader := true
        MatchCountries := []
        StaticResponse := { StatusCode := 200, Headers := some [], Body := "" } } :=
  ⟨rfl, rfl, rfl, rfl, rfl, rfl, rfl⟩

/-- C17: with the trust policy enabled, two requests with the same non-empty
`X-Forwarded-For` value reach the same outcome whatever their connection
addresses: the extracted address is the same, one is blocked exactly when the
other is, and one passes through exactly when the other does.  In particular,
when the first entry of the header is empty after trimming or does not parse as
an address, both pass through. -/
theorem ServeHTTP_forwarded_ignores_remote (ext : Externals) (rc : RejectCountries)
    (rw1 rw2 : ResponseWriter) (req1 req2 : Request)
    (hp : rc.preferXForwardedForHeader = true)
    (hh : req1.Header.Get "X-Forwarded-For" ≠ "")
    (heq : req2.Header.Get "X-Forwarded-For" = req1.Header.Get "X-Forwarded-For") :
    getClientIP rc req2 = getClientIP rc req1 ∧
    (Blocks rc rw1 req1 (ServeHTTP ext rc rw1 req1) ↔
      Blocks rc rw2 req2 (ServeHTTP ext rc rw2 req2)) ∧
    (PassesThrough rc rw1 req1 (ServeHTTP ext rc rw1 req1) ↔
      PassesThrough rc rw2 req2 (ServeHTTP ext rc rw2 req2)) ∧
    ∀ entry r, IsFirstEntry entry (req1.Header.Get "X-Forwarded-For").data →
      IsTrimOf r entry → (r = [] ∨ ext.ParseIP ⟨r⟩ = none) →
      PassesThrough rc rw1 req1 (ServeHTTP ext rc rw1 req1) ∧
        PassesThrough rc rw2 req2 (ServeHTTP ext rc rw2 req2) := by
  have hh2 : req2.Header.Get "X-Forwarded-For" ≠ "" := by rw [heq]; exact hh
  have hip : getClientIP rc req2 = getClientIP rc req1 := by
    rw [getClientIP_of_forwarded rc req1 hp hh, getClientIP_of_forwarded rc req2 hp hh2, heq]
  refine ⟨hip, ?_, ?_, ?_⟩
  · rw [blocks_iff_matches, blocks_iff_matches, hip]
  · rw [passesThrough_iff_not_matches, passesThrough_iff_not_matches, hip]
  · intro entry r hentry htrim hr
    rw [isFirstEntry_iff] at hentry
    rw [isTrimOf_iff] at htrim
    have hr1 : getClientIP rc req1 = ⟨r⟩ := by
      rw [getClientIP_of_forwarded rc req1 hp hh, htrim, hentry]
      rfl
    have hnot : ¬ Matches ext rc (getClientIP rc req1) := by
      rintro ⟨lookup, ip, country, -, hne, hparse, -⟩
      rw [hr1] at hne hparse
      rcases hr with rfl | hnone
      · exact hne rfl
      · rw [hnone] at hparse
        cases hparse
    refine ⟨(passesThrough_iff_not_matches ext rc rw1 req1).2 hnot, ?_⟩
    rw [passesThrough_iff_not_matches, hip]
    exact hnot

/-- Witness for C17: the header "not-an-ip" makes a request pass through from
the connection address "203.0.113.7:4321", which alone resolves to the blocked
country "GB", as it does from "198.51.100.9:4321". -/
theorem ServeHTTP_forwarded_ignores_remote_witness :
    ServeHTTP testExternals (testFilter ["GB"] true) testWriter
        (testRequest [] "203.0.113.7:4321") =
      .logPrintf (.rejecting "GB" "203.0.113.7") ::
        serveStaticResponse (testFilter ["GB"] true) testWriter
          (testRequest [] "203.0.113.7:4321") ∧
    PassesThrough (testFilter ["GB"] true) testWriter
      (testRequest ["not-an-ip"] "198.51.100.9:4321")
      (ServeHTTP testExternals (testFilter ["GB"] true) testWriter
        (testRequest ["not-an-ip"] "198.51.100.9:4321")) ∧
    PassesThrough (testFilter ["GB"] true) testWriter
      (testRequest ["not-an-ip"] "203.0.113.7:4321")
      (ServeHTTP testExternals (testFilter ["GB"] true) testWriter
        (testRequest ["not-an-ip"] "203.0.113.7:4321")) :=
  ⟨by decide,
    (ServeHTTP_forwarded_ignores_remote testExternals (testFilter ["GB"] true)
      testWriter testWriter
      (testRequest ["not-an-ip"] "198.51.100.9:4321")
      (testRequest ["not-an-ip"] "203.0.113.7:4321") rfl (by decide) (by decide)).2.2.2
      "not-an-ip".data "not-an-ip".data ⟨by decide, Or.inl (by decide)⟩
      ⟨[], [], by decide, by decide, by decide, by decide, by decide⟩
      (Or.inr (by decide))⟩

/-- C18: `serveStaticResponse` removes and overwrites no header the response
writer already holds.  Under every name the values held before stay, in front,
and the configured values of that (canonical) name follow them; every name
present before is present afterwards. -/
theorem serveStaticResponse_keeps_headers (rc : RejectCountries) (rw : ResponseWriter)
    (req : Request) (rec : ResponseRecorder) :
    (∀ k, mapGet [] (rec.run rw (serveStaticResponse rc rw req)).1.HeaderMap k =
      mapGet [] rec.HeaderMap k ++ valuesConfigured k (rc.staticResponse.Headers.getD [])) ∧
    (∀ k, mapGet [] rec.HeaderMap k <+:
      mapGet [] (rec.run rw (serveStaticResponse rc rw req)).1.HeaderMap k) ∧
    (∀ k ∈ rec.HeaderMap.map Prod.fst,
      k ∈ (rec.run rw (serveStaticResponse rc rw req)).1.HeaderMap.map Prod.fst) := by
  obtain ⟨adds, tail, hshape, hadds, -, hisAdd, hisBody⟩ := serveStaticResponse_shape rc rw req
  obtain ⟨hrun, -, -, hmap⟩ := run_adds rw adds rec hisAdd
  have hrest : ∀ e ∈ Effect.writeHeader rw rc.staticResponse.StatusCode :: tail,
      e.isAdd = false := by
    intro e he
    rcases List.mem_cons.1 he with rfl | he
    · rfl
    · have := hisBody e he
      cases e <;> simp_all [Effect.isBody, Effect.isAdd]
  have hvalues : ∀ k, mapGet [] (rec.run rw (serveStaticResponse rc rw req)).1.HeaderMap k =
      mapGet [] rec.HeaderMap k ++
        valuesConfigured k (rc.staticResponse.Headers.getD []) := by
    intro k
    rw [hshape, run_append, hrun]
    simp only [Bool.false_eq_true, if_false]
    rw [run_headerMap_of_not_isAdd rw _ _ hrest, hmap k, hadds, valuesAdded_headers]
  refine ⟨hvalues, fun k => ?_, fun k hk => run_keeps_keys rw _ rec k hk⟩
  rw [hvalues k]
  exact List.prefix_append _ _

/-- Witness for C18: on a recorder that holds "X-Custom: old" and
"Server: edge", the response of `staticTestFilter` leaves "old" in front of the
added "test" and leaves "Server" alone. -/
theorem serveStaticResponse_keeps_headers_witness :
    (usedRecorder.run testWriter (serveStaticResponse staticTestFilter testWriter
      (testRequest [] "203.0.113.7:4321"))).1.HeaderMap =
      [("X-Custom", ["old", "test"]), ("Server", ["edge"]), ("Content-Type", ["text/plain"])] ∧
    mapGet [] usedRecorder.HeaderMap "X-Custom" <+:
      mapGet [] (usedRecorder.run testWriter (serveStaticResponse staticTestFilter testWriter
        (testRequest [] "203.0.113.7:4321"))).1.HeaderMap "X-Custom" :=
  ⟨by decide,
    (serveStaticResponse_keeps_headers staticTestFilter testWriter
      (testRequest [] "203.0.113.7:4321") usedRecorder).2.1 "X-Custom"⟩

/-- C19: the unmodified default configuration is rejected: `New` applied to
the result of `CreateConfig` returns no handler and the error
"matchCountries cannot be empty", in every environment, because the default
country list is empty. -/
theorem New_CreateConfig_error (ext : Externals) (next : Handler) (name : String) :
    CreateConfig.MatchCountries = [] ∧
    (New ext next CreateConfig name).handler = none ∧
    (New ext next CreateConfig name).err = some "matchCountries cannot be empty" ∧
    (New ext next CreateConfig name).err ≠ none := by
  obtain ⟨h1, h2⟩ := New_of_empty ext next CreateConfig name rfl
  refine ⟨rfl, h1, h2, ?_⟩
  rw [h2]
  exact Option.some_ne_none _

end Rejectcontries
